import Mathlib

/-!
Verification of the aepoconvert conversion-orchestration layer: a shallow
embedding of the format registry, the engine-adapter argument builders and
validation phases, and the conversion state store, together with theorems
settling the specification claims about them.
-/

set_option maxHeartbeats 1000000

/-- Decidable equality for Except values, used to evaluate the embedded
converters on concrete inputs. -/
instance exceptDecEq {ε α : Type} [DecidableEq ε] [DecidableEq α] :
    DecidableEq (Except ε α) :=
  fun x y =>
    match x, y with
    | .ok a, .ok b =>
      if h : a = b then .isTrue (by rw [h]) else .isFalse (fun hc => by cases hc; exact h rfl)
    | .error a, .error b =>
      if h : a = b then .isTrue (by rw [h]) else .isFalse (fun hc => by cases hc; exact h rfl)
    | .ok _, .error _ => .isFalse (fun hc => by cases hc)
    | .error _, .ok _ => .isFalse (fun hc => by cases hc)

namespace Aepoconvert

/-! ### Format registry data model (src/lib/formats) -/

/-- Category of a format descriptor. -/
inductive FormatCategory where
  | image
  | audio
  | document
deriving DecidableEq, Repr

/-- One registry entry describing a supported file format
(TypeScript interface FormatInfo). -/
structure FormatInfo where
  name : String
  extensions : List String
  mimeTypes : List String
  category : FormatCategory
  canConvertTo : List String
deriving DecidableEq, Repr

/-- Common output formats most image formats can convert to
(COMMON_OUTPUT_FORMATS in image-formats.ts). -/
def COMMON_OUTPUT_FORMATS : List String :=
  ["png", "jpeg", "webp", "gif", "bmp", "tiff", "avif", "jxl", "ico"]

/-- Registry of supported image formats (IMAGE_FORMATS in image-formats.ts). -/
def IMAGE_FORMATS : List FormatInfo := [
  { name := "PNG", extensions := ["png"], mimeTypes := ["image/png"],
    category := .image,
    canConvertTo := ["jpeg", "webp", "gif", "bmp", "tiff", "avif", "jxl", "ico"] },
  { name := "JPEG", extensions := ["jpeg", "jpg"], mimeTypes := ["image/jpeg"],
    category := .image,
    canConvertTo := ["png", "webp", "gif", "bmp", "tiff", "avif", "jxl", "ico"] },
  { name := "WebP", extensions := ["webp"], mimeTypes := ["image/webp"],
    category := .image,
    canConvertTo := ["png", "jpeg", "gif", "bmp", "tiff", "avif", "jxl", "ico"] },
  { name := "GIF", extensions := ["gif"], mimeTypes := ["image/gif"],
    category := .image,
    canConvertTo := ["png", "jpeg", "webp", "bmp", "tiff", "avif", "jxl"] },
  { name := "BMP", extensions := ["bmp"], mimeTypes := ["image/bmp", "image/x-bmp"],
    category := .image,
    canConvertTo := ["png", "jpeg", "webp", "gif", "tiff", "avif", "jxl", "ico"] },
  { name := "TIFF", extensions := ["tiff", "tif"], mimeTypes := ["image/tiff"],
    category := .image,
    canConvertTo := ["png", "jpeg", "webp", "gif", "bmp", "avif", "jxl"] },
  { name := "ICO", extensions := ["ico"],
    mimeTypes := ["image/x-icon", "image/vnd.microsoft.icon"],
    category := .image,
    canConvertTo := ["png", "jpeg", "webp", "bmp", "gif"] },
  { name := "SVG", extensions := ["svg"], mimeTypes := ["image/svg+xml"],
    category := .image,
    canConvertTo := ["png", "jpeg", "webp", "gif", "bmp", "tiff"] },
  { name := "AVIF", extensions := ["avif"], mimeTypes := ["image/avif"],
    category := .image,
    canConvertTo := ["png", "jpeg", "webp", "gif", "bmp", "tiff", "jxl"] },
  { name := "JPEG XL", extensions := ["jxl"], mimeTypes := ["image/jxl"],
    category := .image,
    canConvertTo := ["png", "jpeg", "webp", "gif", "bmp", "tiff", "avif"] },
  { name := "HEIC", extensions := ["heic"], mimeTypes := ["image/heic"],
    category := .image, canConvertTo := COMMON_OUTPUT_FORMATS },
  { name := "HEIF", extensions := ["heif"], mimeTypes := ["image/heif"],
    category := .image, canConvertTo := COMMON_OUTPUT_FORMATS },
  { name := "PSD", extensions := ["psd"],
    mimeTypes := ["image/vnd.adobe.photoshop", "application/x-photoshop"],
    category := .image, canConvertTo := COMMON_OUTPUT_FORMATS },
  { name := "NEF (Nikon RAW)", extensions := ["nef"], mimeTypes := ["image/x-nikon-nef"],
    category := .image, canConvertTo := COMMON_OUTPUT_FORMATS },
  { name := "CR2 (Canon RAW)", extensions := ["cr2"], mimeTypes := ["image/x-canon-cr2"],
    category := .image, canConvertTo := COMMON_OUTPUT_FORMATS },
  { name := "CR3 (Canon RAW)", extensions := ["cr3"], mimeTypes := ["image/x-canon-cr3"],
    category := .image, canConvertTo := COMMON_OUTPUT_FORMATS },
  { name := "ARW (Sony RAW)", extensions := ["arw"], mimeTypes := ["image/x-sony-arw"],
    category := .image, canConvertTo := COMMON_OUTPUT_FORMATS },
  { name := "DNG (Adobe RAW)", extensions := ["dng"], mimeTypes := ["image/x-adobe-dng"],
    category := .image, canConvertTo := COMMON_OUTPUT_FORMATS },
  { name := "ORF (Olympus RAW)", extensions := ["orf"], mimeTypes := ["image/x-olympus-orf"],
    category := .image, canConvertTo := COMMON_OUTPUT_FORMATS },
  { name := "RAF (Fujifilm RAW)", extensions := ["raf"], mimeTypes := ["image/x-fuji-raf"],
    category := .image, canConvertTo := COMMON_OUTPUT_FORMATS },
  { name := "RW2 (Panasonic RAW)", extensions := ["rw2"], mimeTypes := ["image/x-panasonic-rw2"],
    category := .image, canConvertTo := COMMON_OUTPUT_FORMATS },
  { name := "PEF (Pentax RAW)", extensions := ["pef"], mimeTypes := ["image/x-pentax-pef"],
    category := .image, canConvertTo := COMMON_OUTPUT_FORMATS },
  { name := "SRW (Samsung RAW)", extensions := ["srw"], mimeTypes := ["image/x-samsung-srw"],
    category := .image, canConvertTo := COMMON_OUTPUT_FORMATS },
  { name := "ERF (Epson RAW)", extensions := ["erf"], mimeTypes := ["image/x-epson-erf"],
    category := .image, canConvertTo := COMMON_OUTPUT_FORMATS },
  { name := "NRW (Nikon RAW)", extensions := ["nrw"], mimeTypes := ["image/x-nikon-nrw"],
    category := .image, canConvertTo := COMMON_OUTPUT_FORMATS },
  { name := "KDC (Kodak RAW)", extensions := ["kdc"], mimeTypes := ["image/x-kodak-kdc"],
    category := .image, canConvertTo := COMMON_OUTPUT_FORMATS },
  { name := "DCR (Kodak RAW)", extensions := ["dcr"], mimeTypes := ["image/x-kodak-dcr"],
    category := .image, canConvertTo := COMMON_OUTPUT_FORMATS },
  { name := "MRW (Minolta RAW)", extensions := ["mrw"], mimeTypes := ["image/x-minolta-mrw"],
    category := .image, canConvertTo := COMMON_OUTPUT_FORMATS },
  { name := "3FR (Hasselblad RAW)", extensions := ["3fr"], mimeTypes := ["image/x-hasselblad-3fr"],
    category := .image, canConvertTo := COMMON_OUTPUT_FORMATS },
  { name := "X3F (Sigma RAW)", extensions := ["x3f"], mimeTypes := ["image/x-sigma-x3f"],
    category := .image, canConvertTo := COMMON_OUTPUT_FORMATS },
  { name := "TGA", extensions := ["tga"], mimeTypes := ["image/x-tga", "image/x-targa"],
    category := .image, canConvertTo := COMMON_OUTPUT_FORMATS },
  { name := "PCX", extensions := ["pcx"], mimeTypes := ["image/x-pcx"],
    category := .image, canConvertTo := COMMON_OUTPUT_FORMATS },
  { name := "PPM", extensions := ["ppm"], mimeTypes := ["image/x-portable-pixmap"],
    category := .image, canConvertTo := COMMON_OUTPUT_FORMATS },
  { name := "PGM", extensions := ["pgm"], mimeTypes := ["image/x-portable-graymap"],
    category := .image, canConvertTo := COMMON_OUTPUT_FORMATS },
  { name := "PBM", extensions := ["pbm"], mimeTypes := ["image/x-portable-bitmap"],
    category := .image, canConvertTo := COMMON_OUTPUT_FORMATS },
  { name := "PAM", extensions := ["pam"], mimeTypes := ["image/x-portable-anymap"],
    category := .image, canConvertTo := COMMON_OUTPUT_FORMATS },
  { name := "XBM", extensions := ["xbm"], mimeTypes := ["image/x-xbitmap"],
    category := .image, canConvertTo := COMMON_OUTPUT_FORMATS },
  { name := "XPM", extensions := ["xpm"], mimeTypes := ["image/x-xpixmap"],
    category := .image, canConvertTo := COMMON_OUTPUT_FORMATS },
  { name := "EXR", extensions := ["exr"], mimeTypes := ["image/x-exr"],
    category := .image, canConvertTo := COMMON_OUTPUT_FORMATS },
  { name := "HDR", extensions := ["hdr"], mimeTypes := ["image/vnd.radiance"],
    category := .image, canConvertTo := COMMON_OUTPUT_FORMATS }
]

/-- Common audio output formats (COMMON_AUDIO_OUTPUT_FORMATS in audio-formats.ts). -/
def COMMON_AUDIO_OUTPUT_FORMATS : List String :=
  ["mp3", "wav", "ogg", "flac", "aac", "m4a", "opus", "aiff"]

/-- Registry of supported audio formats (AUDIO_FORMATS in audio-formats.ts). -/
def AUDIO_FORMATS : List FormatInfo := [
  { name := "MP3", extensions := ["mp3"], mimeTypes := ["audio/mpeg", "audio/mp3"],
    category := .audio,
    canConvertTo := ["wav", "ogg", "flac", "aac", "m4a", "opus", "aiff", "alac"] },
  { name := "WAV", extensions := ["wav"],
    mimeTypes := ["audio/wav", "audio/x-wav", "audio/wave"],
    category := .audio,
    canConvertTo := ["mp3", "ogg", "flac", "aac", "m4a", "opus", "aiff", "alac"] },
  { name := "OGG Vorbis", extensions := ["ogg"], mimeTypes := ["audio/ogg", "audio/vorbis"],
    category := .audio,
    canConvertTo := ["mp3", "wav", "flac", "aac", "m4a", "opus", "aiff", "alac"] },
  { name := "FLAC", extensions := ["flac"], mimeTypes := ["audio/flac", "audio/x-flac"],
    category := .audio,
    canConvertTo := ["mp3", "wav", "ogg", "aac", "m4a", "opus", "aiff", "alac"] },
  { name := "AAC", extensions := ["aac"], mimeTypes := ["audio/aac", "audio/x-aac"],
    category := .audio,
    canConvertTo := ["mp3", "wav", "ogg", "flac", "m4a", "opus", "aiff", "alac"] },
  { name := "M4A", extensions := ["m4a"],
    mimeTypes := ["audio/m4a", "audio/x-m4a", "audio/mp4"],
    category := .audio,
    canConvertTo := ["mp3", "wav", "ogg", "flac", "aac", "opus", "aiff", "alac"] },
  { name := "Opus", extensions := ["opus"], mimeTypes := ["audio/opus"],
    category := .audio,
    canConvertTo := ["mp3", "wav", "ogg", "flac", "aac", "m4a", "aiff", "alac"] },
  { name := "WMA", extensions := ["wma"], mimeTypes := ["audio/x-ms-wma"],
    category := .audio, canConvertTo := COMMON_AUDIO_OUTPUT_FORMATS },
  { name := "AIFF", extensions := ["aiff", "aif"], mimeTypes := ["audio/aiff", "audio/x-aiff"],
    category := .audio,
    canConvertTo := ["mp3", "wav", "ogg", "flac", "aac", "m4a", "opus", "alac"] },
  { name := "ALAC (Apple Lossless)", extensions := ["alac"], mimeTypes := ["audio/alac"],
    category := .audio,
    canConvertTo := ["mp3", "wav", "ogg", "flac", "aac", "m4a", "opus", "aiff"] }
]

/-- Registry of supported document formats (DOCUMENT_FORMATS in document-formats.ts). -/
def DOCUMENT_FORMATS : List FormatInfo := [
  { name := "PDF", extensions := ["pdf"], mimeTypes := ["application/pdf"],
    category := .document, canConvertTo := ["txt", "html", "md"] },
  { name := "DOCX (Word)", extensions := ["docx"],
    mimeTypes := ["application/vnd.openxmlformats-officedocument.wordprocessingml.document"],
    category := .document,
    canConvertTo := ["pdf", "md", "txt", "html", "epub", "odt", "rtf", "latex", "rst", "asciidoc"] },
  { name := "DOC (Word 97-2003)", extensions := ["doc"], mimeTypes := ["application/msword"],
    category := .document,
    canConvertTo := ["pdf", "docx", "md", "txt", "html", "epub", "odt", "rtf", "latex", "rst", "asciidoc"] },
  { name := "Markdown", extensions := ["md", "markdown"],
    mimeTypes := ["text/markdown", "text/x-markdown"],
    category := .document,
    canConvertTo := ["pdf", "docx", "txt", "html", "epub", "odt", "rtf", "latex", "rst", "asciidoc"] },
  { name := "Plain Text", extensions := ["txt"], mimeTypes := ["text/plain"],
    category := .document,
    canConvertTo := ["pdf", "docx", "md", "html", "epub", "odt", "rtf", "latex", "rst", "asciidoc"] },
  { name := "HTML", extensions := ["html", "htm"], mimeTypes := ["text/html"],
    category := .document,
    canConvertTo := ["pdf", "docx", "md", "txt", "epub", "odt", "rtf", "latex", "rst", "asciidoc"] },
  { name := "EPUB", extensions := ["epub"], mimeTypes := ["application/epub+zip"],
    category := .document,
    canConvertTo := ["pdf", "docx", "md", "txt", "html", "odt", "rtf", "latex", "rst", "asciidoc"] },
  { name := "ODT (OpenDocument)", extensions := ["odt"],
    mimeTypes := ["application/vnd.oasis.opendocument.text"],
    category := .document,
    canConvertTo := ["pdf", "docx", "md", "txt", "html", "epub", "rtf", "latex", "rst", "asciidoc"] },
  { name := "RTF", extensions := ["rtf"], mimeTypes := ["application/rtf", "text/rtf"],
    category := .document,
    canConvertTo := ["pdf", "docx", "md", "txt", "html", "epub", "odt", "latex", "rst", "asciidoc"] },
  { name := "LaTeX", extensions := ["tex", "latex"],
    mimeTypes := ["application/x-latex", "text/x-latex"],
    category := .document,
    canConvertTo := ["pdf", "docx", "md", "txt", "html", "epub", "odt", "rtf", "rst", "asciidoc"] },
  { name := "reStructuredText", extensions := ["rst"],
    mimeTypes := ["text/x-rst", "text/prs.fallenstein.rst"],
    category := .document,
    canConvertTo := ["pdf", "docx", "md", "txt", "html", "epub", "odt", "rtf", "latex", "asciidoc"] },
  { name := "AsciiDoc", extensions := ["adoc", "asciidoc", "asc"],
    mimeTypes := ["text/asciidoc", "text/x-asciidoc"],
    category := .document,
    canConvertTo := ["pdf", "docx", "md", "txt", "html", "epub", "odt", "rtf", "latex", "rst"] }
]

/-- Combined registry of all supported formats (ALL_FORMATS in formats/index.ts). -/
def ALL_FORMATS : List FormatInfo :=
  IMAGE_FORMATS ++ AUDIO_FORMATS ++ DOCUMENT_FORMATS

/-! ### Registry lookup functions (src/lib/formats/index.ts) -/

/-- A file as seen by the detection code: its name and its MIME type
(the two fields of the browser File object that detectFormat reads). -/
structure MockFile where
  name : String
  mimeType : String
deriving DecidableEq, Repr

/-- ASCII lowercasing of a string, character by character: the behavior of
JavaScript toLowerCase on the ASCII identifiers handled here. -/
def strLower (s : String) : String := ⟨s.data.map Char.toLower⟩

/-- Split a string at every dot, the behavior of JavaScript split on a dot. -/
def splitDot (s : String) : List String :=
  (s.data.splitOn '.').map (fun l => ⟨l⟩)

/-- The lowercased suffix of a filename after its last dot, or the empty
string when the name has no dot.  Models both the inline extraction in
detectFormat (lastIndexOf / slice) and getFileExtension in the store
(split / pop), which agree on all inputs. -/
def extAfterLastDot (filename : String) : String :=
  let parts := splitDot filename
  if parts.length > 1 then strLower (parts.getLastD "") else ""

/-- detectFormat from formats/index.ts: match by extension first, then fall
back to an exact MIME-type match, else none. -/
def detectFormat (file : MockFile) : Option FormatInfo :=
  let extension := extAfterLastDot file.name
  let byExtension :=
    if extension ≠ "" then
      ALL_FORMATS.find? (fun format => format.extensions.contains extension)
    else none
  match byExtension with
  | some format => some format
  | none =>
    let mimeType := strLower file.mimeType
    if mimeType ≠ "" then
      ALL_FORMATS.find? (fun format => format.mimeTypes.contains mimeType)
    else none

/-- Remove one leading dot from a string when present, the behavior of the
replace of a leading-dot pattern in getFormatByExtension. -/
def stripLeadingDot (s : String) : String :=
  match s.data with
  | '.' :: rest => ⟨rest⟩
  | _ => s

/-- getFormatByExtension from formats/index.ts: normalize (strip one leading
dot, lowercase) and look the extension up in the combined registry. -/
def getFormatByExtension (ext : String) : Option FormatInfo :=
  let normalizedExt := stripLeadingDot (strLower ext)
  ALL_FORMATS.find? (fun format => format.extensions.contains normalizedExt)

/-- getConvertibleFormats from formats/index.ts: map canConvertTo through the
registry, dropping entries that do not resolve. -/
def getConvertibleFormats (fromFormat : FormatInfo) : List FormatInfo :=
  (fromFormat.canConvertTo.map getFormatByExtension).filterMap id

/-- getFormatsByCategory from formats/index.ts. -/
def getFormatsByCategory (category : FormatCategory) : List FormatInfo :=
  ALL_FORMATS.filter (fun format => format.category = category)

/-- The extension-lookup phase exactly as the specification words it: match
the lowercased suffix after the last dot against the registry (written
independently of detectFormat, for the refinement comparison). -/
def specExtensionLookup (name : String) : Option FormatInfo :=
  ALL_FORMATS.find? (fun format => format.extensions.contains (extAfterLastDot name))

/-- The MIME fallback exactly as the specification words it: an exact
(lowercased) MIME-type match against the registry. -/
def specMimeLookup (mime : String) : Option FormatInfo :=
  ALL_FORMATS.find? (fun format => format.mimeTypes.contains (strLower mime))

/-- Format detection as the specification words it: extension first, exact
MIME match only when extension lookup fails, none when neither matches. -/
def detectFormatSpec (file : MockFile) : Option FormatInfo :=
  match specExtensionLookup file.name with
  | some format => some format
  | none => specMimeLookup file.mimeType

/-! ### Quality settings (src/types, used by the store and converters) -/

/-- Global quality settings (QualitySettings in types).  JavaScript undefined
is modeled as none. -/
structure QualitySettings where
  mode : String
  quality : Int
  bitrate : Option Int
  sampleRate : Option Int
deriving DecidableEq, Repr

/-- Default quality settings (defaultSettings in conversion-store.ts). -/
def defaultSettings : QualitySettings :=
  { mode := "simple", quality := 80, bitrate := none, sampleRate := none }

/-- JavaScript truthiness of an optional numeric field: undefined and 0 are
falsy, every other number is truthy. -/
def optTruthy (o : Option Int) : Bool :=
  match o with
  | some n => !(n == 0)
  | none => false

/-! ### Audio converter (src/lib/converters/audio-converter.ts) -/

/-- One entry of the audio FORMAT_CONFIG table. -/
structure AudioConfig where
  codec : String
  extension : String
  mimeType : String
deriving DecidableEq, Repr

/-- FORMAT_CONFIG from audio-converter.ts, as an association list keyed by
output extension. -/
def FORMAT_CONFIG : List (String × AudioConfig) := [
  ("mp3", { codec := "libmp3lame", extension := "mp3", mimeType := "audio/mpeg" }),
  ("wav", { codec := "pcm_s16le", extension := "wav", mimeType := "audio/wav" }),
  ("ogg", { codec := "libvorbis", extension := "ogg", mimeType := "audio/ogg" }),
  ("flac", { codec := "flac", extension := "flac", mimeType := "audio/flac" }),
  ("aac", { codec := "aac", extension := "aac", mimeType := "audio/aac" }),
  ("m4a", { codec := "aac", extension := "m4a", mimeType := "audio/mp4" })
]

/-- Formats that support bitrate settings (BITRATE_SUPPORTED_FORMATS). -/
def BITRATE_SUPPORTED_FORMATS : List String := ["mp3", "aac", "m4a", "ogg"]

/-- JavaScript Math.round for the values arising here: floor of x + 1/2
(identical to Math.round on all non-negative inputs). -/
def jsRound (x : ℚ) : Int := ⌊x + 1 / 2⌋

/-- The bitrate derived from the quality level when no explicit bitrate is
set: Math.round(64 + ((quality - 1) / 99) * 256) in buildFFmpegArgs. -/
def derivedBitrate (quality : Int) : Int :=
  jsRound (64 + (((quality : ℚ) - 1) / 99) * 256)

/-- buildFFmpegArgs from audio-converter.ts: the FFmpeg argument list for one
audio conversion, or an error for an unsupported output format. -/
def buildFFmpegArgs (inputFile outputFile toFormat : String)
    (settings : QualitySettings) : Except String (List String) :=
  match FORMAT_CONFIG.lookup (strLower toFormat) with
  | none => .error ("Unsupported output format: " ++ toFormat)
  | some config =>
    let fmt := strLower toFormat
    let args := ["-i", inputFile, "-c:a", config.codec]
    let args :=
      if BITRATE_SUPPORTED_FORMATS.contains fmt && optTruthy settings.bitrate then
        args ++ ["-b:a", toString (settings.bitrate.getD 0) ++ "k"]
      else args
    let args :=
      if optTruthy settings.sampleRate then
        args ++ ["-ar", toString (settings.sampleRate.getD 0)]
      else args
    let args :=
      if !optTruthy settings.bitrate && BITRATE_SUPPORTED_FORMATS.contains fmt then
        args ++ ["-b:a", toString (derivedBitrate settings.quality) ++ "k"]
      else args
    .ok (args ++ ["-y", outputFile])

/-! ### Document converter (src/lib/converters/document-converter.ts) -/

/-- INPUT_FORMAT_MAP from document-converter.ts. -/
def INPUT_FORMAT_MAP : List (String × String) := [
  ("md", "markdown"), ("markdown", "markdown"), ("html", "html"), ("htm", "html"),
  ("txt", "plain"), ("docx", "docx"), ("doc", "docx"), ("epub", "epub"),
  ("odt", "odt"), ("rtf", "rtf"), ("tex", "latex"), ("latex", "latex"),
  ("rst", "rst"), ("adoc", "asciidoc"), ("asciidoc", "asciidoc"), ("asc", "asciidoc")
]

/-- OUTPUT_FORMAT_MAP from document-converter.ts. -/
def OUTPUT_FORMAT_MAP : List (String × String) := [
  ("md", "markdown"), ("markdown", "markdown"), ("html", "html"), ("htm", "html"),
  ("txt", "plain"), ("docx", "docx"), ("epub", "epub"), ("odt", "odt"),
  ("rtf", "rtf"), ("tex", "latex"), ("latex", "latex"), ("rst", "rst"),
  ("adoc", "asciidoc"), ("asciidoc", "asciidoc"), ("asc", "asciidoc"), ("pdf", "pdf")
]

/-- MIME_TYPES from document-converter.ts. -/
def DOC_MIME_TYPES : List (String × String) := [
  ("md", "text/markdown"), ("markdown", "text/markdown"), ("html", "text/html"),
  ("htm", "text/html"), ("txt", "text/plain"),
  ("docx", "application/vnd.openxmlformats-officedocument.wordprocessingml.document"),
  ("epub", "application/epub+zip"), ("odt", "application/vnd.oasis.opendocument.text"),
  ("rtf", "application/rtf"), ("tex", "application/x-latex"),
  ("latex", "application/x-latex"), ("rst", "text/x-rst"), ("adoc", "text/asciidoc"),
  ("asciidoc", "text/asciidoc"), ("asc", "text/asciidoc"), ("pdf", "application/pdf")
]

/-- isSupportedDocumentOutputFormat from document-converter.ts. -/
def isSupportedDocumentOutputFormat (format : String) : Bool :=
  (OUTPUT_FORMAT_MAP.lookup (strLower format)).isSome

/-- getDocumentMimeType from document-converter.ts. -/
def getDocumentMimeType (format : String) : String :=
  (DOC_MIME_TYPES.lookup (strLower format)).getD "application/octet-stream"

/-- The error message convertDocument raises for a PDF target. -/
def pdfUnsupportedMessage : String :=
  "PDF output is not supported in browser-based conversion. " ++
    "Please convert to HTML or another format first."

/-- The extension detectInputFormat extracts: last dot-separated segment of
the filename, lowercased (split / pop without a length guard). -/
def docInputExt (name : String) : String :=
  strLower ((splitDot name).getLastD "")

/-- convertDocument from document-converter.ts, modeled up to the external
Pandoc engine, which is passed in as a function from (text, from, to) to a
result or an error.  Returns the conversion result (output text and MIME
type, or an error message) paired with a flag recording whether the engine
was reached (initialized and run); the validation failures all happen before
that. -/
def convertDocument (engine : String → String → String → Except String String)
    (file : MockFile) (fileText : String) (toFormat : String) :
    Except String (String × String) × Bool :=
  let normalizedFormat := strLower toFormat
  if !isSupportedDocumentOutputFormat normalizedFormat then
    (.error ("Unsupported output format: " ++ toFormat), false)
  else if normalizedFormat = "pdf" then
    (.error pdfUnsupportedMessage, false)
  else
    match INPUT_FORMAT_MAP.lookup (docInputExt file.name) with
    | none => (.error ("Unsupported input format: " ++ docInputExt file.name), false)
    | some inputFormat =>
      let outputFormat := (OUTPUT_FORMAT_MAP.lookup normalizedFormat).getD ""
      match engine fileText inputFormat outputFormat with
      | .error msg => (.error ("Document conversion failed: " ++ msg), true)
      | .ok result => (.ok (result, getDocumentMimeType normalizedFormat), true)

/-! ### Image converter (src/lib/converters/image-converter.ts) -/

/-- FORMAT_MAP from image-converter.ts: output extension to ImageMagick
format constant (represented by the constant name). -/
def IMAGE_FORMAT_MAP : List (String × String) := [
  ("png", "Png"), ("jpeg", "Jpeg"), ("jpg", "Jpeg"), ("webp", "WebP"),
  ("gif", "Gif"), ("bmp", "Bmp"), ("tiff", "Tiff"), ("tif", "Tiff"),
  ("ico", "Ico"), ("avif", "Avif"), ("jxl", "Jxl")
]

/-- MIME_TYPE_MAP from image-converter.ts. -/
def IMAGE_MIME_TYPE_MAP : List (String × String) := [
  ("png", "image/png"), ("jpeg", "image/jpeg"), ("jpg", "image/jpeg"),
  ("webp", "image/webp"), ("gif", "image/gif"), ("bmp", "image/bmp"),
  ("tiff", "image/tiff"), ("tif", "image/tiff"), ("ico", "image/x-icon"),
  ("avif", "image/avif"), ("jxl", "image/jxl")
]

/-- Lossy formats that support quality settings (LOSSY_FORMATS). -/
def LOSSY_FORMATS : List String := ["jpeg", "jpg", "webp", "avif", "jxl"]

/-- The quality clamp in convertImage: Math.max(1, Math.min(100, quality)). -/
def clampQuality (quality : Int) : Int := max 1 (min 100 quality)

/-- The validation and parameter-selection phase of convertImage: the
ImageMagick format, output MIME type and the quality value applied to the
image (some value only for lossy targets), or the validation error. -/
structure ImagePlan where
  magickFormat : String
  mimeType : String
  appliedQuality : Option Int
deriving DecidableEq, Repr

/-- convertImage from image-converter.ts, modeled up to the external
ImageMagick engine: format validation, MIME lookup, quality clamping and the
decision whether quality is applied (lossy targets only). -/
def convertImagePlan (toFormat : String) (quality : Int) : Except String ImagePlan :=
  let normalizedFormat := strLower toFormat
  match IMAGE_FORMAT_MAP.lookup normalizedFormat with
  | none => .error ("Unsupported target format: " ++ toFormat)
  | some magickFormat =>
    match IMAGE_MIME_TYPE_MAP.lookup normalizedFormat with
    | none => .error ("Unknown MIME type for format: " ++ toFormat)
    | some mimeType =>
      let clampedQuality := clampQuality quality
      .ok { magickFormat := magickFormat, mimeType := mimeType,
            appliedQuality :=
              if LOSSY_FORMATS.contains normalizedFormat then some clampedQuality
              else none }

/-! ### Conversion state store (src/store/conversion-store.ts)

The store is modeled as an explicit state record plus one function per store
action.  The asynchronous parts of startConversion (the per-task promises
created by convertWithWorkerFallback and the continuation after
Promise.allSettled) are modeled by run records holding the ids of dispatched
tasks that have not yet settled, together with settle / progress / finish
events that fire later in an execution.  Ids, produced by generateId in the
source, are modeled by a fresh counter. -/

/-- Per-task conversion status (ConversionStatus in types). -/
inductive Status where
  | pending
  | converting
  | complete
  | error
deriving DecidableEq, Repr

/-- Opaque token standing for a result Blob. -/
abbrev Blob := Nat

/-- One task of the store (ConvertibleFile in types).  The source also
carries the file size, which no store logic reads. -/
structure Task where
  id : Nat
  file : MockFile
  name : String
  fromExt : String
  toExt : Option String
  status : Status
  progress : Nat
  errorMsg : Option String
  result : Option Blob
deriving DecidableEq, Repr

/-- One dispatched conversion run: the ids of the tasks whose Execution
Boundary invocations have not yet settled, and the settings snapshot
captured when the run started. -/
structure Run where
  pending : List Nat
  snapshot : QualitySettings
deriving DecidableEq, Repr

/-- The store state (ConversionState), together with the id counter and the
in-flight run records. -/
structure StoreState where
  files : List Task
  isConverting : Bool
  globalSettings : QualitySettings
  nextId : Nat
  runs : List Run
deriving DecidableEq, Repr

/-- The store's initial state. -/
def initialState : StoreState :=
  { files := [], isConverting := false, globalSettings := defaultSettings,
    nextId := 0, runs := [] }

/-- Partial update of a task (Partial ConvertibleFile as used through
updateFile): a field set to some v is assigned, none leaves it alone. -/
structure TaskPatch where
  toExt : Option (Option String) := none
  status : Option Status := none
  progress : Option Nat := none
  errorMsg : Option (Option String) := none
  result : Option (Option Blob) := none
deriving DecidableEq, Repr

/-- Object.assign of a patch onto a task. -/
def applyPatch (t : Task) (p : TaskPatch) : Task :=
  { t with
    toExt := p.toExt.getD t.toExt
    status := p.status.getD t.status
    progress := p.progress.getD t.progress
    errorMsg := p.errorMsg.getD t.errorMsg
    result := p.result.getD t.result }

/-- Partial update of the global settings (Partial QualitySettings). -/
structure SettingsPatch where
  mode : Option String := none
  quality : Option Int := none
  bitrate : Option (Option Int) := none
  sampleRate : Option (Option Int) := none
deriving DecidableEq, Repr

/-- Object.assign of a settings patch onto the global settings. -/
def mergeSettings (s : QualitySettings) (p : SettingsPatch) : QualitySettings :=
  { mode := p.mode.getD s.mode
    quality := p.quality.getD s.quality
    bitrate := p.bitrate.getD s.bitrate
    sampleRate := p.sampleRate.getD s.sampleRate }

/-- Apply a function to the first list element satisfying the predicate,
leaving the rest unchanged: the find-then-mutate pattern of the store. -/
def modifyFirst (p : α → Bool) (g : α → α) : List α → List α
  | [] => []
  | x :: xs => if p x then g x :: xs else x :: modifyFirst p g xs

/-- getDefaultOutputFormat from conversion-store.ts: the first convertible
format whose extensions do not include the source extension, else the first
convertible format, else null; its first extension is the default target. -/
def getDefaultOutputFormat (sourceExtension : String)
    (detectedFormat : Option FormatInfo) : Option String :=
  match detectedFormat with
  | none => none
  | some fmt =>
    match getConvertibleFormats fmt with
    | [] => none
    | first :: rest =>
      let preferredFormat :=
        ((first :: rest).find?
          (fun format => !(format.extensions.contains sourceExtension))).getD first
      preferredFormat.extensions.head?

/-- The body of the addFiles map: build one new pending task from a file
(detection, source-extension normalization, default target selection). -/
def mkTask (id : Nat) (file : MockFile) : Task :=
  let detectedFormat := detectFormat file
  let extension := extAfterLastDot file.name
  let normalizedFrom :=
    match detectedFormat with
    | some fmt =>
      if fmt.extensions.contains extension then extension
      else (fmt.extensions.head?).getD ""
    | none => extension
  let defaultOutput := getDefaultOutputFormat normalizedFrom detectedFormat
  { id := id, file := file, name := file.name, fromExt := normalizedFrom,
    toExt := defaultOutput, status := .pending, progress := 0,
    errorMsg := none, result := none }

/-- addFiles from conversion-store.ts: append one new pending task per input
file. -/
def addFiles (s : StoreState) (fs : List MockFile) : StoreState :=
  let newTasks := fs.enum.map (fun p => mkTask (s.nextId + p.1) p.2)
  { s with files := s.files ++ newTasks, nextId := s.nextId + fs.length }

/-- removeFile from conversion-store.ts: splice out the first task with the
given id. -/
def removeFile (s : StoreState) (id : Nat) : StoreState :=
  { s with files := s.files.eraseP (fun t => t.id == id) }

/-- updateFile from conversion-store.ts: Object.assign the patch onto the
first task with the given id, if any. -/
def updateFile (s : StoreState) (id : Nat) (p : TaskPatch) : StoreState :=
  { s with files := modifyFirst (fun t => t.id == id) (fun t => applyPatch t p) s.files }

/-- setOutputFormat from conversion-store.ts. -/
def setOutputFormat (s : StoreState) (id : Nat) (format : String) : StoreState :=
  { s with files := modifyFirst (fun t => t.id == id) (fun t => { t with toExt := some format }) s.files }

/-- setGlobalSettings from conversion-store.ts. -/
def setGlobalSettings (s : StoreState) (p : SettingsPatch) : StoreState :=
  { s with globalSettings := mergeSettings s.globalSettings p }

/-- clearAll from conversion-store.ts: drop every task and force-clear the
converting flag.  Conversions already dispatched keep running; their run
records stay until they settle. -/
def clearAll (s : StoreState) : StoreState :=
  { s with files := [], isConverting := false }

/-- The task marker applied by startConversion to each selected task. -/
def markConverting (t : Task) : Task :=
  { t with status := .converting, progress := 0, errorMsg := none, result := none }

/-- The selection predicate of startConversion: pending with a chosen
target. -/
def isReadyTask (t : Task) : Bool :=
  t.status == .pending && t.toExt.isSome

/-- The synchronous prefix of startConversion: the duplicate-run guard, the
selection of ready tasks, the settings snapshot, the marking of each
selected task as converting, and the dispatch of one Execution Boundary
invocation per selected task (recorded as a new run). -/
def startConversion (s : StoreState) : StoreState :=
  if s.isConverting then s
  else
    let pendingFiles := s.files.filter isReadyTask
    if pendingFiles.isEmpty then s
    else
      let settings := s.globalSettings
      let files := pendingFiles.foldl
        (fun acc t => modifyFirst (fun x => x.id == t.id) markConverting acc) s.files
      let newRun : Run := { pending := pendingFiles.map Task.id, snapshot := settings }
      { s with files := files, isConverting := true, runs := s.runs ++ [newRun] }

/-- The marking fold of startConversion, applied to an arbitrary task list. -/
def markAll (ts : List Task) (l : List Task) : List Task :=
  ts.foldl (fun acc t => modifyFirst (fun x => x.id == t.id) markConverting acc) l

/-- Result of one Execution Boundary invocation. -/
inductive Outcome where
  | success (blob : Blob)
  | failure (msg : String)
deriving DecidableEq, Repr

/-- The task update of the success branch of runSingleConversion. -/
def markComplete (blob : Blob) (t : Task) : Task :=
  { t with status := .complete, progress := 100, errorMsg := none, result := some blob }

/-- The task update of the failure branch of runSingleConversion. -/
def markError (msg : String) (t : Task) : Task :=
  { t with status := .error, errorMsg := some msg }

/-- The completion handler of runSingleConversion for one dispatched task:
on success mark it complete with the result, on failure mark it error with
the message; in both cases the settled id leaves its run's pending list.
Only an id dispatched and not yet settled has such an event. -/
def settleTask (s : StoreState) (id : Nat) (outcome : Outcome) : StoreState :=
  if s.runs.any (fun r => r.pending.contains id) then
    let files :=
      match outcome with
      | .success blob => modifyFirst (fun t => t.id == id) (markComplete blob) s.files
      | .failure msg => modifyFirst (fun t => t.id == id) (markError msg) s.files
    let runs := s.runs.map (fun r => { r with pending := r.pending.erase id })
    { s with files := files, runs := runs }
  else s

/-- The onProgress handler of runSingleConversion: update progress of the
task if it is still converting. -/
def progressTask (s : StoreState) (id : Nat) (p : Nat) : StoreState :=
  let g := fun (t : Task) => if t.status == .converting then { t with progress := p } else t
  { s with files := modifyFirst (fun t => t.id == id) g s.files }

/-- The continuation of startConversion after Promise.allSettled: once every
invocation of a run has settled, the converting flag is cleared and the run
record is gone. -/
def finishRun (s : StoreState) : StoreState :=
  if s.runs.any (fun r => r.pending.isEmpty) then
    let runs := s.runs.filter (fun r => !r.pending.isEmpty)
    { s with isConverting := false, runs := runs }
  else s

/-- DropZone handleFiles (upload DropZone wired to the store): keep the
files whose format is detected, drop the rest (surfaced only as a toast),
and add the kept ones to the store. -/
def dropZoneHandleFiles (s : StoreState) (fs : List MockFile) : StoreState :=
  if fs.isEmpty then s
  else
    let supportedFiles := fs.filter (fun f => (detectFormat f).isSome)
    if supportedFiles.length > 0 then addFiles s supportedFiles else s

/-- One store-level event of an execution: a public store action, or one of
the asynchronous callbacks of a dispatched run. -/
inductive Event where
  | add (fs : List MockFile)
  | remove (id : Nat)
  | clear
  | setFormat (id : Nat) (format : String)
  | setSettings (p : SettingsPatch)
  | update (id : Nat) (p : TaskPatch)
  | start
  | settle (id : Nat) (outcome : Outcome)
  | progress (id : Nat) (p : Nat)
  | finish
deriving DecidableEq, Repr

/-- Apply one event to the store state. -/
def applyEvent (s : StoreState) : Event → StoreState
  | .add fs => addFiles s fs
  | .remove id => removeFile s id
  | .clear => clearAll s
  | .setFormat id format => setOutputFormat s id format
  | .setSettings p => setGlobalSettings s p
  | .update id p => updateFile s id p
  | .start => startConversion s
  | .settle id outcome => settleTask s id outcome
  | .progress id p => progressTask s id p
  | .finish => finishRun s

/-- Apply a list of events in order. -/
def applyEvents (s : StoreState) (es : List Event) : StoreState :=
  es.foldl applyEvent s

/-- The exact patch passed by the retry action:
update(id, status pending, error null, result null). -/
def retryPatch : TaskPatch :=
  { status := some .pending, errorMsg := some none, result := some none }

/-- An event is tame in a state when raw updateFile is used only as the
retry action on a task currently in the error state; every other event is
always tame. -/
def tameEvent (s : StoreState) (e : Event) : Prop :=
  match e with
  | .update id p => p = retryPatch ∧ ∀ t ∈ s.files, t.id = id → t.status = .error
  | _ => True

/-- An execution whose events are all tame in the states where they fire. -/
inductive TameTrace : StoreState → List Event → StoreState → Prop where
  | nil (s : StoreState) : TameTrace s [] s
  | cons {s s' : StoreState} {e : Event} {es : List Event} :
      tameEvent s e → TameTrace (applyEvent s e) es s' → TameTrace s (e :: es) s'

/-- The status of the task with a given id, none when absent. -/
def statusOf (s : StoreState) (id : Nat) : Option Status :=
  (s.files.find? (fun t => t.id == id)).map Task.status

/-- The legal status transitions of the specification state machine:
staying put, pending to converting, converting to complete, converting to
error, and the retry edge error to pending. -/
def allowedStep (a b : Status) : Prop :=
  a = b ∨
  (a = .pending ∧ b = .converting) ∨
  (a = .converting ∧ b = .complete) ∨
  (a = .converting ∧ b = .error) ∨
  (a = .error ∧ b = .pending)

instance (a b : Status) : Decidable (allowedStep a b) := by
  unfold allowedStep; infer_instance

/-! ### Helper lemmas about the list operations of the store -/

theorem map_id_modifyFirst (p : Task → Bool) (g : Task → Task)
    (hg : ∀ t, (g t).id = t.id) :
    ∀ l : List Task, (modifyFirst p g l).map Task.id = l.map Task.id := by
  intro l
  induction l with
  | nil => rfl
  | cons x xs ih =>
    unfold modifyFirst
    by_cases hx : p x
    · rw [if_pos hx]
      simp [hg]
    · rw [if_neg hx]
      simp [ih]

theorem mem_modifyFirst {p : Task → Bool} {g : Task → Task} {t' : Task} :
    ∀ {l : List Task}, t' ∈ modifyFirst p g l →
      ∃ t ∈ l, t' = t ∨ (p t = true ∧ t' = g t) := by
  intro l
  induction l with
  | nil => intro h; cases h
  | cons x xs ih =>
    intro h
    unfold modifyFirst at h
    by_cases hx : p x
    · rw [if_pos hx] at h
      rcases List.mem_cons.mp h with h | h
      · exact ⟨x, List.mem_cons_self x xs, Or.inr ⟨hx, h⟩⟩
      · exact ⟨t', List.mem_cons_of_mem x h, Or.inl rfl⟩
    · rw [if_neg hx] at h
      rcases List.mem_cons.mp h with h | h
      · exact ⟨x, List.mem_cons_self x xs, Or.inl h⟩
      · obtain ⟨t, ht, hor⟩ := ih h
        exact ⟨t, List.mem_cons_of_mem x ht, hor⟩

theorem find?_modifyFirst_ne {i j : Nat} (hij : j ≠ i) {g : Task → Task}
    (hg : ∀ t, (g t).id = t.id) (l : List Task) :
    (modifyFirst (fun t => t.id == i) g l).find? (fun t => t.id == j) =
      l.find? (fun t => t.id == j) := by
  induction l with
  | nil => rfl
  | cons x xs ih =>
    unfold modifyFirst
    cases hpx : (x.id == i) with
    | true =>
      have hx : x.id = i := beq_iff_eq.mp hpx
      have e1 : ((g x).id == j) = false := by
        rw [hg x, hx]
        exact beq_eq_false_iff_ne.mpr (Ne.symm hij)
      have e2 : (x.id == j) = false := by
        rw [hx]
        exact beq_eq_false_iff_ne.mpr (Ne.symm hij)
      simp [hpx, List.find?_cons, e1, e2]
    | false =>
      cases hxj : (x.id == j) with
      | true => simp [hpx, List.find?_cons, hxj]
      | false => simp [hpx, List.find?_cons, hxj, ih]

theorem find?_modifyFirst_eq {i : Nat} {g : Task → Task}
    (hg : ∀ t, (g t).id = t.id) (l : List Task) :
    (modifyFirst (fun t => t.id == i) g l).find? (fun t => t.id == i) =
      (l.find? (fun t => t.id == i)).map g := by
  induction l with
  | nil => rfl
  | cons x xs ih =>
    unfold modifyFirst
    cases hpx : (x.id == i) with
    | true =>
      have e1 : ((g x).id == i) = true := by rw [hg x]; exact hpx
      simp [hpx, List.find?_cons, e1]
    | false => simp [hpx, List.find?_cons, ih]

theorem id_of_find?_eq_some {l : List Task} {j : Nat} {t : Task}
    (h : l.find? (fun t => t.id == j) = some t) : t.id = j := by
  have := List.find?_some h
  simpa using this

theorem find?_eq_some_of_mem_uniq {l : List Task}
    (hu : l.Pairwise (fun a b => a.id ≠ b.id)) {t : Task} (ht : t ∈ l) :
    l.find? (fun x => x.id == t.id) = some t := by
  induction l with
  | nil => cases ht
  | cons x xs ih =>
    rcases List.mem_cons.mp ht with h | h
    · subst h
      simp [List.find?_cons]
    · have hx : x.id ≠ t.id := (List.pairwise_cons.mp hu).1 t h
      have e : (x.id == t.id) = false := beq_eq_false_iff_ne.mpr hx
      simp [List.find?_cons, e, ih (List.pairwise_cons.mp hu).2 h]

theorem find?_eraseP_ne {i j : Nat} (hij : j ≠ i) (l : List Task) :
    (l.eraseP (fun t => t.id == i)).find? (fun t => t.id == j) =
      l.find? (fun t => t.id == j) := by
  induction l with
  | nil => rfl
  | cons x xs ih =>
    cases hpx : (x.id == i) with
    | true =>
      have hx : x.id = i := beq_iff_eq.mp hpx
      have e2 : (x.id == j) = false := by
        rw [hx]
        exact beq_eq_false_iff_ne.mpr (Ne.symm hij)
      simp [List.eraseP_cons, hpx, List.find?_cons, e2]
    | false =>
      cases hxj : (x.id == j) with
      | true => simp [List.eraseP_cons, hpx, List.find?_cons, hxj]
      | false => simp [List.eraseP_cons, hpx, List.find?_cons, hxj, ih]

theorem find?_eraseP_self_uniq {i : Nat} {l : List Task}
    (hu : l.Pairwise (fun a b => a.id ≠ b.id)) :
    (l.eraseP (fun t => t.id == i)).find? (fun t => t.id == i) = none := by
  induction l with
  | nil => rfl
  | cons x xs ih =>
    cases hpx : (x.id == i) with
    | true =>
      simp only [List.eraseP_cons, hpx, cond_true]
      apply List.find?_eq_none.mpr
      intro t ht
      have hne : x.id ≠ t.id := (List.pairwise_cons.mp hu).1 t ht
      have hx : x.id = i := beq_iff_eq.mp hpx
      simp only [beq_iff_eq]
      rw [← hx]
      exact fun hh => hne hh.symm
    | false =>
      simp [List.eraseP_cons, hpx, List.find?_cons,
        ih (List.pairwise_cons.mp hu).2]

theorem find?_append_left {l₁ l₂ : List Task} {p : Task → Bool} {t : Task} :
    l₁.find? p = some t → (l₁ ++ l₂).find? p = some t := by
  induction l₁ with
  | nil => intro h; cases h
  | cons x xs ih =>
    intro h
    cases hx : p x with
    | true =>
      rw [List.find?_cons, hx] at h
      rw [List.cons_append, List.find?_cons, hx]
      exact h
    | false =>
      rw [List.find?_cons, hx] at h
      rw [List.cons_append, List.find?_cons, hx]
      exact ih h

theorem markConverting_id (t : Task) : (markConverting t).id = t.id := rfl

theorem markConverting_idem (t : Task) :
    markConverting (markConverting t) = markConverting t := rfl

theorem find?_markAll {j : Nat} :
    ∀ (ts : List Task), (ts.map Task.id).Nodup → ∀ (l : List Task),
    (markAll ts l).find? (fun x => x.id == j) =
      if j ∈ ts.map Task.id then
        (l.find? (fun x => x.id == j)).map markConverting
      else l.find? (fun x => x.id == j) := by
  intro ts
  induction ts with
  | nil => intro _ l; simp [markAll]
  | cons t ts ih =>
    intro hnd l
    rw [List.map_cons] at hnd
    have hhead : t.id ∉ ts.map Task.id := (List.nodup_cons.mp hnd).1
    have hnd' : (ts.map Task.id).Nodup := (List.nodup_cons.mp hnd).2
    have hstep : markAll (t :: ts) l =
        markAll ts (modifyFirst (fun x => x.id == t.id) markConverting l) := rfl
    rw [hstep, ih hnd', List.map_cons]
    by_cases hj : j = t.id
    · subst hj
      rw [if_neg hhead, if_pos (List.mem_cons_self _ _)]
      exact find?_modifyFirst_eq markConverting_id l
    · rw [find?_modifyFirst_ne hj markConverting_id l]
      by_cases hmem : j ∈ ts.map Task.id
      · rw [if_pos hmem, if_pos (List.mem_cons_of_mem _ hmem)]
      · rw [if_neg hmem, if_neg (fun hc => by
          rcases List.mem_cons.mp hc with h | h
          · exact hj h
          · exact hmem h)]

theorem mem_markAll {t' : Task} :
    ∀ {ts l : List Task}, t' ∈ markAll ts l → ∃ t ∈ l, t' = t ∨ t' = markConverting t := by
  intro ts
  induction ts with
  | nil => intro l h; exact ⟨t', h, Or.inl rfl⟩
  | cons x xs ih =>
    intro l h
    have hstep : markAll (x :: xs) l =
        markAll xs (modifyFirst (fun y => y.id == x.id) markConverting l) := rfl
    rw [hstep] at h
    obtain ⟨u, hu, hor⟩ := ih h
    obtain ⟨v, hv, hor'⟩ := mem_modifyFirst hu
    refine ⟨v, hv, ?_⟩
    rcases hor with h2 | h2 <;> rcases hor' with h1 | ⟨_, h1⟩
    · exact Or.inl (h2.trans h1)
    · exact Or.inr (h2.trans h1)
    · exact Or.inr (by rw [h2, h1])
    · exact Or.inr (by rw [h2, h1, markConverting_idem])

theorem map_id_markAll : ∀ (ts l : List Task),
    (markAll ts l).map Task.id = l.map Task.id := by
  intro ts
  induction ts with
  | nil => intro l; rfl
  | cons x xs ih =>
    intro l
    have hstep : markAll (x :: xs) l =
        markAll xs (modifyFirst (fun y => y.id == x.id) markConverting l) := rfl
    rw [hstep, ih, map_id_modifyFirst _ _ markConverting_id]

theorem uniq_of_map_id_eq {l l' : List Task}
    (h : l'.map Task.id = l.map Task.id)
    (hu : l.Pairwise (fun a b => a.id ≠ b.id)) :
    l'.Pairwise (fun a b => a.id ≠ b.id) := by
  have h1 : (l.map Task.id).Pairwise (· ≠ ·) := List.pairwise_map.mpr hu
  rw [← h] at h1
  exact List.pairwise_map.mp h1

theorem applyPatch_id (t : Task) (p : TaskPatch) : (applyPatch t p).id = t.id := rfl

theorem markComplete_id (b : Blob) (t : Task) : (markComplete b t).id = t.id := rfl

theorem markError_id (m : String) (t : Task) : (markError m t).id = t.id := rfl

theorem mkTask_id (i : Nat) (f : MockFile) : (mkTask i f).id = i := rfl

/-! ### The store invariant -/

/-- Well-formedness of a store state: task ids and pending-run ids stay
below the id counter, task ids are unique, each run's pending list has no
duplicates, and every task whose id is pending in some run is converting. -/
structure WFState (s : StoreState) : Prop where
  idsLt : ∀ t ∈ s.files, t.id < s.nextId
  pendLt : ∀ r ∈ s.runs, ∀ i ∈ r.pending, i < s.nextId
  uniq : s.files.Pairwise (fun a b => a.id ≠ b.id)
  pendNodup : ∀ r ∈ s.runs, r.pending.Nodup
  inflight : ∀ r ∈ s.runs, ∀ i ∈ r.pending, ∀ t ∈ s.files, t.id = i →
    t.status = .converting

theorem wf_initial : WFState initialState := by
  constructor <;> simp [initialState]

theorem wf_files_modify {s : StoreState} (hwf : WFState s) {g : Task → Task}
    {i : Nat} (hgid : ∀ t, (g t).id = t.id) (hgst : ∀ t, (g t).status = t.status) :
    WFState { s with files := modifyFirst (fun t => t.id == i) g s.files } := by
  constructor
  · intro t' ht'
    obtain ⟨t, ht, hor⟩ := mem_modifyFirst ht'
    rcases hor with h | ⟨_, h⟩
    · exact h ▸ hwf.idsLt t ht
    · rw [h, hgid]
      exact hwf.idsLt t ht
  · exact hwf.pendLt
  · exact uniq_of_map_id_eq (map_id_modifyFirst _ _ hgid s.files) hwf.uniq
  · exact hwf.pendNodup
  · intro r hr i' hi' t' ht' hid
    obtain ⟨t, ht, hor⟩ := mem_modifyFirst ht'
    rcases hor with h | ⟨_, h⟩
    · subst h
      exact hwf.inflight r hr i' hi' t' ht hid
    · rw [h, hgst]
      exact hwf.inflight r hr i' hi' t ht (by rw [← hgid t, ← h]; exact hid)

theorem wf_addFiles {s : StoreState} (hwf : WFState s) (fs : List MockFile) :
    WFState (addFiles s fs) := by
  have hnew : ∀ t' ∈ fs.enum.map (fun p => mkTask (s.nextId + p.1) p.2),
      ∃ k, k < fs.length ∧ t'.id = s.nextId + k := by
    intro t' ht'
    obtain ⟨p, hp, hmk⟩ := List.mem_map.mp ht'
    have h2 : p.1 ∈ fs.enum.map Prod.fst := List.mem_map_of_mem _ hp
    rw [List.enum_map_fst] at h2
    exact ⟨p.1, List.mem_range.mp h2, by rw [← hmk, mkTask_id]⟩
  constructor
  · intro t' ht'
    rcases List.mem_append.mp ht' with h | h
    · exact Nat.lt_of_lt_of_le (hwf.idsLt t' h) (Nat.le_add_right _ _)
    · obtain ⟨k, hk, hid⟩ := hnew t' h
      rw [hid]
      exact Nat.add_lt_add_left hk _
  · intro r hr i hi
    exact Nat.lt_of_lt_of_le (hwf.pendLt r hr i hi) (Nat.le_add_right _ _)
  · show List.Pairwise (fun a b => a.id ≠ b.id)
      (s.files ++ fs.enum.map (fun p => mkTask (s.nextId + p.1) p.2))
    rw [List.pairwise_append]
    refine ⟨hwf.uniq, ?_, ?_⟩
    · apply List.pairwise_map.mpr
      have h1 : (fs.enum.map Prod.fst).Pairwise (· ≠ ·) := List.nodup_enum_map_fst fs
      have h2 : fs.enum.Pairwise (fun p q => p.1 ≠ q.1) := List.pairwise_map.mp h1
      exact h2.imp (fun hne hc => hne (Nat.add_left_cancel hc))
    · intro a ha b hb
      obtain ⟨k, _, hid⟩ := hnew b hb
      have : a.id < s.nextId := hwf.idsLt a ha
      rw [hid]
      exact Nat.ne_of_lt (Nat.lt_of_lt_of_le this (Nat.le_add_right _ _))
  · exact hwf.pendNodup
  · intro r hr i hi t' ht' hid
    rcases List.mem_append.mp ht' with h | h
    · exact hwf.inflight r hr i hi t' h hid
    · obtain ⟨k, _, hid'⟩ := hnew t' h
      have h1 : i < s.nextId := hwf.pendLt r hr i hi
      exfalso
      omega

theorem wf_settle_core {s : StoreState} (hwf : WFState s) {i : Nat}
    {g : Task → Task} (hgid : ∀ t, (g t).id = t.id) :
    WFState { s with
      files := modifyFirst (fun t => t.id == i) g s.files
      runs := s.runs.map (fun r => { r with pending := r.pending.erase i }) } := by
  constructor
  · intro t' ht'
    obtain ⟨t, ht, hor⟩ := mem_modifyFirst ht'
    rcases hor with h | ⟨_, h⟩
    · exact h ▸ hwf.idsLt t ht
    · rw [h, hgid]
      exact hwf.idsLt t ht
  · intro r' hr' i' hi'
    obtain ⟨r, hr, hfr⟩ := List.mem_map.mp hr'
    rw [← hfr] at hi'
    exact hwf.pendLt r hr i' (List.mem_of_mem_erase hi')
  · exact uniq_of_map_id_eq (map_id_modifyFirst _ _ hgid s.files) hwf.uniq
  · intro r' hr'
    obtain ⟨r, hr, hfr⟩ := List.mem_map.mp hr'
    rw [← hfr]
    exact (hwf.pendNodup r hr).erase i
  · intro r' hr' i' hi' t' ht' hid
    obtain ⟨r, hr, hfr⟩ := List.mem_map.mp hr'
    rw [← hfr] at hi'
    have hne : i' ≠ i ∧ i' ∈ r.pending :=
      ((hwf.pendNodup r hr).mem_erase_iff).mp hi'
    obtain ⟨t, ht, hor⟩ := mem_modifyFirst ht'
    rcases hor with h | ⟨hpt, h⟩
    · subst h
      exact hwf.inflight r hr i' hne.2 t' ht hid
    · exfalso
      have htid : t.id = i := beq_iff_eq.mp hpt
      have : t'.id = i := by rw [h, hgid, htid]
      rw [this] at hid
      exact hne.1 hid.symm

theorem wf_applyEvent {s : StoreState} {e : Event} (hwf : WFState s)
    (hte : tameEvent s e) : WFState (applyEvent s e) := by
  cases e with
  | add fs => exact wf_addFiles hwf fs
  | remove i =>
    have hsub : List.Sublist (s.files.eraseP (fun t => t.id == i)) s.files :=
      List.eraseP_sublist s.files
    constructor
    · intro t ht
      exact hwf.idsLt t (hsub.subset ht)
    · exact hwf.pendLt
    · exact hwf.uniq.sublist hsub
    · exact hwf.pendNodup
    · intro r hr i' hi' t ht hid
      exact hwf.inflight r hr i' hi' t (hsub.subset ht) hid
  | clear =>
    refine ⟨?_, ?_, ?_, ?_, ?_⟩
    · intro t ht
      exact absurd ht (List.not_mem_nil t)
    · exact hwf.pendLt
    · exact List.Pairwise.nil
    · exact hwf.pendNodup
    · intro r hr i hi t ht
      exact absurd ht (List.not_mem_nil t)
  | setFormat i f =>
    exact wf_files_modify hwf (fun t => rfl) (fun t => rfl)
  | setSettings p =>
    exact ⟨hwf.idsLt, hwf.pendLt, hwf.uniq, hwf.pendNodup, hwf.inflight⟩
  | update i p =>
    obtain ⟨hp, herr⟩ := hte
    subst hp
    constructor
    · intro t' ht'
      obtain ⟨t, ht, hor⟩ := mem_modifyFirst ht'
      rcases hor with h | ⟨_, h⟩
      · exact h ▸ hwf.idsLt t ht
      · rw [h, applyPatch_id]
        exact hwf.idsLt t ht
    · exact hwf.pendLt
    · exact uniq_of_map_id_eq
        (map_id_modifyFirst _ _ (fun t => applyPatch_id t retryPatch) s.files) hwf.uniq
    · exact hwf.pendNodup
    · intro r hr i' hi' t' ht' hid
      obtain ⟨t, ht, hor⟩ := mem_modifyFirst ht'
      rcases hor with h | ⟨hpt, h⟩
      · subst h
        exact hwf.inflight r hr i' hi' t' ht hid
      · exfalso
        have htid : t.id = i := beq_iff_eq.mp hpt
        have herr' : t.status = .error := herr t ht htid
        have hid' : t.id = i' := by rw [← applyPatch_id t retryPatch, ← h]; exact hid
        have hconv : t.status = .converting := hwf.inflight r hr i' hi' t ht hid'
        rw [herr'] at hconv
        cases hconv
  | start =>
    show WFState (startConversion s)
    unfold startConversion
    by_cases hconv : s.isConverting = true
    · rw [if_pos hconv]
      exact hwf
    · rw [if_neg hconv]
      by_cases hempty : (s.files.filter isReadyTask).isEmpty = true
      · rw [if_pos hempty]
        exact hwf
      · rw [if_neg hempty]
        have hsubf : List.Sublist (s.files.filter isReadyTask) s.files :=
          List.filter_sublist s.files
        have hpw : (s.files.filter isReadyTask).Pairwise (fun a b => a.id ≠ b.id) :=
          hwf.uniq.sublist hsubf
        have hnodup : ((s.files.filter isReadyTask).map Task.id).Nodup :=
          List.pairwise_map.mpr hpw
        show WFState
          { s with
            files := markAll (s.files.filter isReadyTask) s.files
            isConverting := true
            runs := s.runs ++ [{ pending := (s.files.filter isReadyTask).map Task.id,
                                 snapshot := s.globalSettings }] }
        have huniq' : (markAll (s.files.filter isReadyTask) s.files).Pairwise
            (fun a b => a.id ≠ b.id) :=
          uniq_of_map_id_eq (map_id_markAll _ s.files) hwf.uniq
        constructor
        · intro t' ht'
          obtain ⟨t, ht, hor⟩ := mem_markAll ht'
          rcases hor with h | h
          · exact h ▸ hwf.idsLt t ht
          · rw [h, markConverting_id]
            exact hwf.idsLt t ht
        · intro r hr i hi
          rcases List.mem_append.mp hr with h | h
          · exact hwf.pendLt r h i hi
          · rw [List.mem_singleton.mp h] at hi
            obtain ⟨t, ht, hid⟩ := List.mem_map.mp hi
            exact hid ▸ hwf.idsLt t (List.mem_of_mem_filter ht)
        · exact huniq'
        · intro r hr
          rcases List.mem_append.mp hr with h | h
          · exact hwf.pendNodup r h
          · rw [List.mem_singleton.mp h]
            exact hnodup
        · intro r hr i hi t' ht' hid
          rcases List.mem_append.mp hr with h | h
          · obtain ⟨t, ht, hor⟩ := mem_markAll ht'
            rcases hor with h1 | h1
            · subst h1
              exact hwf.inflight r h i hi t' ht hid
            · rw [h1]
              rfl
          · rw [List.mem_singleton.mp h] at hi
            have hfind : (markAll (s.files.filter isReadyTask) s.files).find?
                (fun x => x.id == t'.id) = some t' :=
              find?_eq_some_of_mem_uniq huniq' ht'
            rw [hid] at hfind
            rw [find?_markAll _ hnodup s.files, if_pos hi] at hfind
            obtain ⟨u, _, hu2⟩ := Option.map_eq_some'.mp hfind
            rw [← hu2]
            rfl
  | settle i oc =>
    show WFState (settleTask s i oc)
    unfold settleTask
    by_cases hguard : (s.runs.any fun r => r.pending.contains i) = true
    · rw [if_pos hguard]
      cases oc with
      | success b => exact wf_settle_core hwf (markComplete_id b)
      | failure m => exact wf_settle_core hwf (markError_id m)
    · rw [if_neg hguard]
      exact hwf
  | progress i p =>
    show WFState (progressTask s i p)
    exact wf_files_modify hwf (fun t => by
        by_cases h : (t.status == Status.converting) = true <;> simp [h])
      (fun t => by
        by_cases h : (t.status == Status.converting) = true <;> simp [h])
  | finish =>
    show WFState (finishRun s)
    unfold finishRun
    by_cases hguard : (s.runs.any fun r => r.pending.isEmpty) = true
    · rw [if_pos hguard]
      constructor
      · exact hwf.idsLt
      · intro r hr i hi
        exact hwf.pendLt r (List.mem_of_mem_filter hr) i hi
      · exact hwf.uniq
      · intro r hr
        exact hwf.pendNodup r (List.mem_of_mem_filter hr)
      · intro r hr i hi t ht hid
        exact hwf.inflight r (List.mem_of_mem_filter hr) i hi t ht hid
    · rw [if_neg hguard]
      exact hwf

theorem wf_of_trace : ∀ {es : List Event} {s s' : StoreState},
    TameTrace s es s' → WFState s → WFState s' := by
  intro es
  induction es with
  | nil =>
    intro s s' htr hwf
    cases htr
    exact hwf
  | cons e es ih =>
    intro s s' htr hwf
    cases htr with
    | cons hte htr' => exact ih htr' (wf_applyEvent hwf hte)

theorem allowed_of_eq {st st' : Status} (h : st = st') : allowedStep st st' :=
  Or.inl h

theorem statusOf_modify_preserved {s : StoreState} {i j : Nat} {g : Task → Task}
    (hgid : ∀ t, (g t).id = t.id) (hgst : ∀ t, (g t).status = t.status) :
    statusOf { s with files := modifyFirst (fun t => t.id == i) g s.files } j =
      statusOf s j := by
  unfold statusOf
  by_cases hj : j = i
  · subst hj
    show ((modifyFirst (fun t => t.id == j) g s.files).find?
        (fun t => t.id == j)).map Task.status = _
    rw [find?_modifyFirst_eq hgid]
    cases s.files.find? (fun t => t.id == j) <;> simp [hgst]
  · show ((modifyFirst (fun t => t.id == i) g s.files).find?
        (fun t => t.id == j)).map Task.status = _
    rw [find?_modifyFirst_ne hj hgid]

/-- One tame event never moves a task (present before and after the event)
outside the legal transition relation. -/
theorem step_legal {s : StoreState} (hwf : WFState s) {e : Event}
    (hte : tameEvent s e) {j : Nat} {st st' : Status}
    (h1 : statusOf s j = some st) (h2 : statusOf (applyEvent s e) j = some st') :
    allowedStep st st' := by
  cases e with
  | add fs =>
    obtain ⟨t, hf, hst⟩ := Option.map_eq_some'.mp h1
    have h2' : statusOf (addFiles s fs) j = some st' := h2
    have h3 : statusOf (addFiles s fs) j = some t.status := by
      show ((s.files ++ fs.enum.map (fun p => mkTask (s.nextId + p.1) p.2)).find?
          (fun t => t.id == j)).map Task.status = _
      rw [find?_append_left hf]
      rfl
    rw [h3] at h2'
    exact allowed_of_eq (hst.symm.trans (Option.some.inj h2'))
  | remove i =>
    have h2' : statusOf (removeFile s i) j = some st' := h2
    by_cases hj : j = i
    · subst hj
      have h3 : statusOf (removeFile s j) j = none := by
        show ((s.files.eraseP (fun t => t.id == j)).find?
            (fun t => t.id == j)).map Task.status = _
        rw [find?_eraseP_self_uniq hwf.uniq]
        rfl
      rw [h3] at h2'
      cases h2'
    · have h3 : statusOf (removeFile s i) j = statusOf s j := by
        show ((s.files.eraseP (fun t => t.id == i)).find?
            (fun t => t.id == j)).map Task.status = _
        rw [find?_eraseP_ne hj]
        rfl
      rw [h3, h1] at h2'
      exact allowed_of_eq (Option.some.inj h2')
  | clear =>
    have h2' : statusOf (clearAll s) j = some st' := h2
    have h3 : statusOf (clearAll s) j = none := rfl
    rw [h3] at h2'
    cases h2'
  | setFormat i f =>
    have h3 := statusOf_modify_preserved (s := s) (i := i) (j := j)
      (g := fun t => { t with toExt := some f }) (fun t => rfl) (fun t => rfl)
    have h2' : statusOf { s with files := modifyFirst (fun t => t.id == i) (fun t => { t with toExt := some f }) s.files } j = some st' := h2
    exact allowed_of_eq (Option.some.inj (h1.symm.trans (h3.symm.trans h2')))
  | setSettings p =>
    exact allowed_of_eq (Option.some.inj (h1.symm.trans h2))
  | update i p =>
    obtain ⟨hp, herr⟩ := hte
    subst hp
    have h2' : statusOf (updateFile s i retryPatch) j = some st' := h2
    by_cases hj : j = i
    · subst hj
      obtain ⟨t, hf, hst⟩ := Option.map_eq_some'.mp h1
      have hmem : t ∈ s.files := List.mem_of_find?_eq_some hf
      have hid : t.id = j := id_of_find?_eq_some hf
      have herr' : t.status = .error := herr t hmem hid
      have h3 : statusOf (updateFile s j retryPatch) j =
          some (applyPatch t retryPatch).status := by
        show ((modifyFirst (fun t => t.id == j) (fun t => applyPatch t retryPatch)
            s.files).find? (fun t => t.id == j)).map Task.status = _
        rw [find?_modifyFirst_eq (fun t => applyPatch_id t retryPatch), hf]
        rfl
      rw [h3] at h2'
      have hpend : (applyPatch t retryPatch).status = .pending := rfl
      rw [hpend] at h2'
      rw [← hst, herr']
      exact Or.inr (Or.inr (Or.inr (Or.inr ⟨rfl, (Option.some.inj h2').symm⟩)))
    · have h3 : statusOf (updateFile s i retryPatch) j = statusOf s j := by
        show ((modifyFirst (fun t => t.id == i) (fun t => applyPatch t retryPatch)
            s.files).find? (fun t => t.id == j)).map Task.status = _
        rw [find?_modifyFirst_ne hj (fun t => applyPatch_id t retryPatch)]
        rfl
      rw [h3, h1] at h2'
      exact allowed_of_eq (Option.some.inj h2')
  | start =>
    show allowedStep st st'
    have h2' : statusOf (startConversion s) j = some st' := h2
    unfold startConversion at h2'
    by_cases hconv : s.isConverting = true
    · rw [if_pos hconv] at h2'
      rw [h1] at h2'
      exact allowed_of_eq (Option.some.inj h2')
    · rw [if_neg hconv] at h2'
      by_cases hempty : (s.files.filter isReadyTask).isEmpty = true
      · rw [if_pos hempty] at h2'
        rw [h1] at h2'
        exact allowed_of_eq (Option.some.inj h2')
      · rw [if_neg hempty] at h2'
        have hnodup : ((s.files.filter isReadyTask).map Task.id).Nodup :=
          List.pairwise_map.mpr (hwf.uniq.sublist (List.filter_sublist s.files))
        have h3 : statusOf { s with
            files := markAll (s.files.filter isReadyTask) s.files
            isConverting := true
            runs := s.runs ++ [{ pending := (s.files.filter isReadyTask).map Task.id,
                                 snapshot := s.globalSettings }] } j = some st' := h2'
        have h4 : ((markAll (s.files.filter isReadyTask) s.files).find?
            (fun t => t.id == j)).map Task.status = some st' := h3
        rw [find?_markAll _ hnodup s.files] at h4
        by_cases hj : j ∈ (s.files.filter isReadyTask).map Task.id
        · rw [if_pos hj] at h4
          obtain ⟨t, hf, hst⟩ := Option.map_eq_some'.mp h1
          rw [hf] at h4
          have hst' : st' = .converting := (Option.some.inj h4).symm
          obtain ⟨u, hu, huid⟩ := List.mem_map.mp hj
          have hufiles : u ∈ s.files := List.mem_of_mem_filter hu
          have hupend : u.status = .pending := by
            have hrt := List.of_mem_filter hu
            unfold isReadyTask at hrt
            rw [Bool.and_eq_true] at hrt
            exact beq_iff_eq.mp hrt.1
          have hfu : s.files.find? (fun x => x.id == u.id) = some u :=
            find?_eq_some_of_mem_uniq hwf.uniq hufiles
          rw [huid] at hfu
          have htu : t = u := Option.some.inj (hf.symm.trans hfu)
          rw [hst', ← hst, htu, hupend]
          exact Or.inr (Or.inl ⟨rfl, rfl⟩)
        · rw [if_neg hj] at h4
          have h4' : statusOf s j = some st' := h4
          exact allowed_of_eq (Option.some.inj (h1.symm.trans h4'))
  | settle i oc =>
    have h2' : statusOf (settleTask s i oc) j = some st' := h2
    unfold settleTask at h2'
    by_cases hguard : (s.runs.any fun r => r.pending.contains i) = true
    · rw [if_pos hguard] at h2'
      by_cases hj : j = i
      · subst hj
        obtain ⟨t, hf, hst⟩ := Option.map_eq_some'.mp h1
        have hmem : t ∈ s.files := List.mem_of_find?_eq_some hf
        have hid : t.id = j := id_of_find?_eq_some hf
        obtain ⟨r, hr, hcont⟩ := List.any_eq_true.mp hguard
        have hjr : j ∈ r.pending := by simpa using hcont
        have hconv : t.status = .converting := hwf.inflight r hr j hjr t hmem hid
        cases oc with
        | success b =>
          have h3 : ((modifyFirst (fun t => t.id == j) (markComplete b)
              s.files).find? (fun t => t.id == j)).map Task.status = some st' := h2'
          rw [find?_modifyFirst_eq (markComplete_id b), hf] at h3
          have : st' = .complete := (Option.some.inj h3).symm
          rw [this, ← hst, hconv]
          exact Or.inr (Or.inr (Or.inl ⟨rfl, rfl⟩))
        | failure m =>
          have h3 : ((modifyFirst (fun t => t.id == j) (markError m)
              s.files).find? (fun t => t.id == j)).map Task.status = some st' := h2'
          rw [find?_modifyFirst_eq (markError_id m), hf] at h3
          have : st' = .error := (Option.some.inj h3).symm
          rw [this, ← hst, hconv]
          exact Or.inr (Or.inr (Or.inr (Or.inl ⟨rfl, rfl⟩)))
      · cases oc with
        | success b =>
          have h3 : ((modifyFirst (fun t => t.id == i) (markComplete b)
              s.files).find? (fun t => t.id == j)).map Task.status = some st' := h2'
          rw [find?_modifyFirst_ne hj (markComplete_id b)] at h3
          have h3' : statusOf s j = some st' := h3
          exact allowed_of_eq (Option.some.inj (h1.symm.trans h3'))
        | failure m =>
          have h3 : ((modifyFirst (fun t => t.id == i) (markError m)
              s.files).find? (fun t => t.id == j)).map Task.status = some st' := h2'
          rw [find?_modifyFirst_ne hj (markError_id m)] at h3
          have h3' : statusOf s j = some st' := h3
          exact allowed_of_eq (Option.some.inj (h1.symm.trans h3'))
    · rw [if_neg hguard] at h2'
      rw [h1] at h2'
      exact allowed_of_eq (Option.some.inj h2')
  | progress i p =>
    have h3 := statusOf_modify_preserved (s := s) (i := i) (j := j)
      (g := fun t => if t.status == Status.converting then { t with progress := p } else t)
      (fun t => by by_cases h : (t.status == Status.converting) = true <;> simp [h])
      (fun t => by by_cases h : (t.status == Status.converting) = true <;> simp [h])
    have h2' : statusOf { s with files := modifyFirst (fun t => t.id == i) (fun t => if t.status == Status.converting then { t with progress := p } else t) s.files } j = some st' := h2
    exact allowed_of_eq (Option.some.inj (h1.symm.trans (h3.symm.trans h2')))
  | finish =>
    have h2' : statusOf (finishRun s) j = some st' := h2
    unfold finishRun at h2'
    by_cases hguard : (s.runs.any fun r => r.pending.isEmpty) = true
    · rw [if_pos hguard] at h2'
      have h2'' : statusOf s j = some st' := h2'
      exact allowed_of_eq (Option.some.inj (h1.symm.trans h2''))
    · rw [if_neg hguard] at h2'
      have h2'' : statusOf s j = some st' := h2'
      exact allowed_of_eq (Option.some.inj (h1.symm.trans h2''))

/-! ### The single-run invariant (no clearAll interference) -/

/-- The run-counting invariant of executions without clearAll: at most one
run is in flight, and when the flag is down no dispatched conversion is
outstanding. -/
def RunInv (s : StoreState) : Prop :=
  s.runs.length ≤ 1 ∧ (s.isConverting = false → s.runs = [])

theorem runInv_initial : RunInv initialState := by
  constructor <;> simp [initialState]

theorem runInv_applyEvent {s : StoreState} {e : Event} (hinv : RunInv s)
    (hne : e ≠ Event.clear) : RunInv (applyEvent s e) := by
  obtain ⟨hlen, hflag⟩ := hinv
  cases e with
  | clear => exact absurd rfl hne
  | add fs => exact ⟨hlen, hflag⟩
  | remove i => exact ⟨hlen, hflag⟩
  | setFormat i f => exact ⟨hlen, hflag⟩
  | setSettings p => exact ⟨hlen, hflag⟩
  | update i p => exact ⟨hlen, hflag⟩
  | progress i p => exact ⟨hlen, hflag⟩
  | start =>
    show RunInv (startConversion s)
    unfold startConversion
    by_cases hconv : s.isConverting = true
    · rw [if_pos hconv]
      exact ⟨hlen, hflag⟩
    · rw [if_neg hconv]
      by_cases hempty : (s.files.filter isReadyTask).isEmpty = true
      · rw [if_pos hempty]
        exact ⟨hlen, hflag⟩
      · rw [if_neg hempty]
        have hnil : s.runs = [] := hflag (Bool.not_eq_true s.isConverting ▸ hconv)
        constructor
        · show (s.runs ++ [_]).length ≤ 1
          rw [hnil]
          simp
        · intro hfalse
          cases hfalse
  | settle i oc =>
    show RunInv (settleTask s i oc)
    unfold settleTask
    by_cases hguard : (s.runs.any fun r => r.pending.contains i) = true
    · rw [if_pos hguard]
      constructor
      · show (s.runs.map _).length ≤ 1
        rw [List.length_map]
        exact hlen
      · intro hflag'
        have hnil : s.runs = [] := hflag hflag'
        rw [hnil]
        rfl
    · rw [if_neg hguard]
      exact ⟨hlen, hflag⟩
  | finish =>
    show RunInv (finishRun s)
    unfold finishRun
    by_cases hguard : (s.runs.any fun r => r.pending.isEmpty) = true
    · rw [if_pos hguard]
      constructor
      · show (s.runs.filter _).length ≤ 1
        exact Nat.le_trans (List.length_filter_le _ _) hlen
      · intro _
        show s.runs.filter (fun r => !r.pending.isEmpty) = []
        obtain ⟨r, hr, hre⟩ := List.any_eq_true.mp hguard
        cases hruns : s.runs with
        | nil => rfl
        | cons r0 rest =>
          have : rest = [] := by
            rw [hruns] at hlen
            simpa using hlen
          subst this
          rw [hruns] at hr
          have : r = r0 := List.mem_singleton.mp hr
          subst this
          simp [List.filter, hre]
    · rw [if_neg hguard]
      exact ⟨hlen, hflag⟩

theorem runInv_applyEvents : ∀ {es : List Event},
    (∀ e ∈ es, e ≠ Event.clear) → ∀ {s : StoreState}, RunInv s →
    RunInv (applyEvents s es) := by
  intro es
  induction es with
  | nil =>
    intro _ s hinv
    exact hinv
  | cons e es ih =>
    intro hnc s hinv
    have h1 : RunInv (applyEvent s e) :=
      runInv_applyEvent hinv (hnc e (List.mem_cons_self e es))
    exact ih (fun e' he' => hnc e' (List.mem_cons_of_mem e he')) h1

/-! ### Supporting lemmas on the converters and the registry -/

theorem derivedBitrate_eq_div (q : Int) :
    derivedBitrate q = (2 * (6336 + 256 * (q - 1)) + 99) / (198 : ℤ) := by
  unfold derivedBitrate jsRound
  have hcast : (64 : ℚ) + (((q : ℚ) - 1) / 99) * 256 + 1 / 2 =
      ((2 * (6336 + 256 * (q - 1)) + 99 : ℤ) : ℚ) / ((198 : ℕ) : ℚ) := by
    push_cast
    ring
  rw [hcast, Rat.floor_intCast_div_natCast]
  norm_num

theorem derivedBitrate_one : derivedBitrate 1 = 64 := by
  rw [derivedBitrate_eq_div]
  decide

theorem derivedBitrate_fifty : derivedBitrate 50 = 191 := by
  rw [derivedBitrate_eq_div]
  decide

theorem derivedBitrate_hundred : derivedBitrate 100 = 320 := by
  rw [derivedBitrate_eq_div]
  decide

theorem bitrate_supported_has_config (x : String)
    (h : BITRATE_SUPPORTED_FORMATS.contains x = true) :
    ∃ c, FORMAT_CONFIG.lookup x = some c := by
  have hx : x ∈ BITRATE_SUPPORTED_FORMATS := by simpa using h
  fin_cases hx <;> exact ⟨_, rfl⟩

theorem buildFFmpegArgs_no_explicit_bitrate
    (inputFile outputFile toFormat : String) (settings : QualitySettings)
    (config : AudioConfig)
    (hcfg : FORMAT_CONFIG.lookup (strLower toFormat) = some config)
    (hsup : BITRATE_SUPPORTED_FORMATS.contains (strLower toFormat) = true)
    (hb : optTruthy settings.bitrate = false) :
    buildFFmpegArgs inputFile outputFile toFormat settings =
      .ok (["-i", inputFile, "-c:a", config.codec] ++
        (if optTruthy settings.sampleRate then
          ["-ar", toString (settings.sampleRate.getD 0)] else []) ++
        ["-b:a", toString (derivedBitrate settings.quality) ++ "k", "-y", outputFile]) := by
  unfold buildFFmpegArgs
  rw [hcfg]
  have hmem : strLower toFormat ∈ BITRATE_SUPPORTED_FORMATS := by simpa using hsup
  cases hsr : optTruthy settings.sampleRate <;>
    simp [hb, hsup, hsr, hmem, List.append_assoc]

theorem mem_ALL_of_getFormatByExtension {e : String} {F : FormatInfo}
    (h : getFormatByExtension e = some F) : F ∈ ALL_FORMATS := by
  have h' : ALL_FORMATS.find?
      (fun format => format.extensions.contains (stripLeadingDot (strLower e))) =
      some F := h
  exact List.mem_of_find?_eq_some h'

theorem mem_ALL_of_mem_convertible {D F : FormatInfo}
    (h : F ∈ getConvertibleFormats D) : F ∈ ALL_FORMATS := by
  unfold getConvertibleFormats at h
  obtain ⟨o, ho, hid⟩ := List.mem_filterMap.mp h
  obtain ⟨e, _, hfe⟩ := List.mem_map.mp ho
  have : o = some F := hid
  rw [this] at hfe
  exact mem_ALL_of_getFormatByExtension hfe

theorem registry_extensions_ne_nil : ∀ F ∈ ALL_FORMATS, F.extensions ≠ [] := by
  decide

theorem detectFormat_eq_spec (file : MockFile) :
    detectFormat file = detectFormatSpec file := by
  obtain ⟨name, mime⟩ := file
  have hext0 : ALL_FORMATS.find?
      (fun format => decide (("" : String) ∈ format.extensions)) = none := by decide
  have hmime0 : ALL_FORMATS.find?
      (fun format => decide (("" : String) ∈ format.mimeTypes)) = none := by decide
  by_cases he : extAfterLastDot name = ""
  · by_cases hm : strLower mime = ""
    · simp [detectFormat, detectFormatSpec, specExtensionLookup, specMimeLookup,
        he, hm, hext0, hmime0]
    · simp [detectFormat, detectFormatSpec, specExtensionLookup, specMimeLookup,
        he, hm, hext0]
  · cases hfind : ALL_FORMATS.find?
        (fun format => decide (extAfterLastDot name ∈ format.extensions)) with
    | some F =>
      simp [detectFormat, detectFormatSpec, specExtensionLookup, he, hfind]
    | none =>
      by_cases hm : strLower mime = ""
      · simp [detectFormat, detectFormatSpec, specExtensionLookup, specMimeLookup,
          he, hfind, hm, hmime0]
      · simp [detectFormat, detectFormatSpec, specExtensionLookup, specMimeLookup,
          he, hfind, hm]

theorem getDefaultOutputFormat_cons {D F₀ : FormatInfo} {rest : List FormatInfo}
    (hcf : getConvertibleFormats D = F₀ :: rest) (src : String) :
    getDefaultOutputFormat src (some D) =
      (((F₀ :: rest).find?
        (fun format => !(format.extensions.contains src))).getD F₀).extensions.head? := by
  unfold getDefaultOutputFormat
  show (match getConvertibleFormats D with
    | [] => none
    | first :: rest =>
      (((first :: rest).find?
        (fun (format : FormatInfo) => !(format.extensions.contains src))).getD
          first).extensions.head?)
    = _
  rw [hcf]

/-! ### Claim theorems -/

/-- C7: detectFormat matches by file extension first (case-insensitive
suffix after the last dot) and returns that descriptor regardless of the
MIME type; it falls back to an exact MIME-type match only when extension
lookup fails, and returns none when neither matches.  Stated as equivalence
with the specification-worded detection function, MIME-irrelevance of a
successful extension match, the MIME fallback, and the double-failure
case. -/
theorem detect_format_extension_first :
    (∀ file : MockFile, detectFormat file = detectFormatSpec file) ∧
    (∀ name m m' : String, specExtensionLookup name ≠ none →
      detectFormat ⟨name, m⟩ = detectFormat ⟨name, m'⟩) ∧
    (∀ name m : String, specExtensionLookup name = none →
      detectFormat ⟨name, m⟩ = specMimeLookup m) ∧
    (∀ file : MockFile, specExtensionLookup file.name = none →
      specMimeLookup file.mimeType = none → detectFormat file = none) := by
  refine ⟨detectFormat_eq_spec, ?_, ?_, ?_⟩
  · intro name m m' hne
    rw [detectFormat_eq_spec ⟨name, m⟩, detectFormat_eq_spec ⟨name, m'⟩]
    unfold detectFormatSpec
    cases hx : specExtensionLookup name with
    | some F => rfl
    | none => exact absurd hx hne
  · intro name m hx
    rw [detectFormat_eq_spec ⟨name, m⟩]
    unfold detectFormatSpec
    simp [hx]
  · intro file hx hm
    rw [detectFormat_eq_spec file]
    unfold detectFormatSpec
    simp [hx, hm]

/-- Witness for C7: the specification example photo.PNG resolves to the PNG
descriptor by extension, for any MIME type. -/
theorem detect_format_extension_first_witness :
    specExtensionLookup "photo.PNG" ≠ none ∧
    detectFormat ⟨"photo.PNG", "application/octet-stream"⟩ =
      detectFormat ⟨"photo.PNG", "image/png"⟩ ∧
    (detectFormat ⟨"photo.PNG", "application/octet-stream"⟩).map FormatInfo.name =
      some "PNG" :=
  ⟨by decide,
   detect_format_extension_first.2.1 "photo.PNG" "application/octet-stream"
     "image/png" (by decide),
   by decide⟩

/-- C8: every extension named in any registry descriptor's convertibleTo
list resolves to a descriptor via getFormatByExtension (closed-world
registry). -/
theorem convertible_closure :
    ∀ D ∈ ALL_FORMATS, ∀ e ∈ D.canConvertTo,
      (getFormatByExtension e).isSome = true := by
  decide

/-- Witness for C8 at the first registry descriptor and its first
convertible extension. -/
theorem convertible_closure_witness :
    (getFormatByExtension "jpeg").isSome = true :=
  convertible_closure (ALL_FORMATS.getD 0 ⟨"", [], [], .image, []⟩) (by decide)
    "jpeg" (by decide)

/-- C6: when the detected descriptor's convertible list offers a format not
carrying the source extension, the default target differs from the source
extension; when every option carries it, the first convertible format's
first extension is chosen; an empty convertible list or no detection gives
no target. -/
theorem default_target_selection :
    (∀ (D : FormatInfo) (src : String),
        (∃ F ∈ getConvertibleFormats D, src ∉ F.extensions) →
        ∃ t, getDefaultOutputFormat src (some D) = some t ∧ t ≠ src) ∧
    (∀ (D : FormatInfo) (src : String), getConvertibleFormats D = [] →
        getDefaultOutputFormat src (some D) = none) ∧
    (∀ (D : FormatInfo) (src : String) (F₀ : FormatInfo) (rest : List FormatInfo),
        getConvertibleFormats D = F₀ :: rest →
        (∀ F ∈ getConvertibleFormats D, src ∈ F.extensions) →
        getDefaultOutputFormat src (some D) = F₀.extensions.head?) ∧
    (∀ src : String, getDefaultOutputFormat src none = none) := by
  refine ⟨?_, ?_, ?_, fun src => rfl⟩
  · intro D src hex
    obtain ⟨F, hF, hFs⟩ := hex
    cases hcf : getConvertibleFormats D with
    | nil =>
      rw [hcf] at hF
      cases hF
    | cons F₀ rest =>
      rw [getDefaultOutputFormat_cons hcf]
      have hsome : ((F₀ :: rest).find?
          (fun format => !(format.extensions.contains src))).isSome := by
        rw [List.find?_isSome]
        refine ⟨F, hcf ▸ hF, ?_⟩
        simp [hFs]
      obtain ⟨F', hF'⟩ := Option.isSome_iff_exists.mp hsome
      rw [hF']
      have hmem : F' ∈ F₀ :: rest := List.mem_of_find?_eq_some hF'
      have hnotin : src ∉ F'.extensions := by
        have := List.find?_some hF'
        simpa using this
      have hall : F' ∈ ALL_FORMATS := mem_ALL_of_mem_convertible (hcf ▸ hmem)
      have hnil : F'.extensions ≠ [] := registry_extensions_ne_nil F' hall
      cases hx : F'.extensions with
      | nil => exact absurd hx hnil
      | cons t ts =>
        refine ⟨t, by simp [hx], ?_⟩
        intro heq
        exact hnotin (heq ▸ (hx ▸ List.mem_cons_self t ts))
  · intro D src hcf
    unfold getDefaultOutputFormat
    show (match getConvertibleFormats D with
      | [] => none
      | first :: rest =>
        (((first :: rest).find?
          (fun (format : FormatInfo) => !(format.extensions.contains src))).getD
            first).extensions.head?)
      = _
    rw [hcf]
  · intro D src F₀ rest hcf hall
    rw [getDefaultOutputFormat_cons hcf]
    have hnone : (F₀ :: rest).find?
        (fun format => !(format.extensions.contains src)) = none := by
      apply List.find?_eq_none.mpr
      intro F hF
      have := hall F (hcf ▸ hF)
      simp [this]
    rw [hnone]
    rfl

/-- Witness for C6: for the first registry descriptor (PNG) with source
extension png, the chosen default target exists and differs from png. -/
theorem default_target_selection_witness :
    (∃ F ∈ getConvertibleFormats (ALL_FORMATS.getD 0 ⟨"", [], [], .image, []⟩),
        ("png" : String) ∉ F.extensions) ∧
    ∃ t, getDefaultOutputFormat "png"
        (some (ALL_FORMATS.getD 0 ⟨"", [], [], .image, []⟩)) = some t ∧
      t ≠ "png" :=
  ⟨by decide, default_target_selection.1 _ "png" (by decide)⟩

/-- C2 counterexample: the store's addFiles does not itself exclude a file
whose extension and MIME type match no registry entry; for file.xyz with
MIME application/octet-stream it adds one pending task with a null target,
not zero tasks. -/
theorem unsupported_file_store_add_counterexample :
    detectFormat ⟨"file.xyz", "application/octet-stream"⟩ = none ∧
    (addFiles initialState [⟨"file.xyz", "application/octet-stream"⟩]).files.length
      = 1 ∧
    (addFiles initialState [⟨"file.xyz", "application/octet-stream"⟩]).files.map
      Task.status = [.pending] ∧
    (addFiles initialState [⟨"file.xyz", "application/octet-stream"⟩]).files.map
      Task.toExt = [none] :=
  ⟨by decide, by decide, by decide, by decide⟩

/-- C2 (amended): the exclusion of undetected files happens in the DropZone
layer of the add flow, before the store: handleFiles passes only files with
a detected format to addFiles, so an input matching no registry entry by
extension or MIME contributes zero tasks, and in general the add flow
creates exactly one task per detected input. -/
theorem unsupported_file_excluded_at_dropzone :
    (∀ (s : StoreState) (fs : List MockFile),
        (dropZoneHandleFiles s fs).files.length =
          s.files.length + (fs.filter (fun f => (detectFormat f).isSome)).length) ∧
    (∀ (s : StoreState) (f : MockFile), detectFormat f = none →
        dropZoneHandleFiles s [f] = s) := by
  constructor
  · intro s fs
    unfold dropZoneHandleFiles
    by_cases hempty : fs.isEmpty = true
    · rw [if_pos hempty]
      have : fs = [] := by simpa using hempty
      subst this
      simp
    · rw [if_neg hempty]
      by_cases hpos : (fs.filter (fun f => (detectFormat f).isSome)).length > 0
      · rw [if_pos hpos]
        show (s.files ++ _).length = _
        simp [addFiles]
      · rw [if_neg hpos]
        have h0 : (fs.filter (fun f => (detectFormat f).isSome)).length = 0 :=
          Nat.eq_zero_of_not_pos hpos
        rw [h0]
        simp
  · intro s f h
    unfold dropZoneHandleFiles
    have hf : ([f].filter (fun f => (detectFormat f).isSome)) = [] := by simp [h]
    rw [if_neg (by simp), hf]
    simp

/-- Witness for C2 (amended): the drop-zone add flow leaves the store
unchanged for the undetected file.xyz. -/
theorem unsupported_file_excluded_at_dropzone_witness :
    detectFormat ⟨"file.xyz", "application/octet-stream"⟩ = none ∧
    dropZoneHandleFiles initialState [⟨"file.xyz", "application/octet-stream"⟩] =
      initialState :=
  ⟨by decide,
   unsupported_file_excluded_at_dropzone.2 initialState
     ⟨"file.xyz", "application/octet-stream"⟩ (by decide)⟩

/-- C10: convertImage clamps the quality into the range 1 to 100 before
applying it to a lossy target (below 1 becomes 1, above 100 becomes 100),
and whether convertImage succeeds never depends on the quality value. -/
theorem image_quality_clamped :
    (∀ (toFormat : String) (quality : Int) (plan : ImagePlan),
        convertImagePlan toFormat quality = .ok plan →
        LOSSY_FORMATS.contains (strLower toFormat) = true →
        plan.appliedQuality = some (clampQuality quality)) ∧
    (∀ quality : Int, 1 ≤ clampQuality quality ∧ clampQuality quality ≤ 100) ∧
    (∀ quality : Int, quality < 1 → clampQuality quality = 1) ∧
    (∀ quality : Int, 100 < quality → clampQuality quality = 100) ∧
    (∀ (toFormat : String) (q q' : Int),
        (convertImagePlan toFormat q).isOk = (convertImagePlan toFormat q').isOk) := by
  refine ⟨?_, ?_, ?_, ?_, ?_⟩
  · intro toFormat quality plan h hl
    unfold convertImagePlan at h
    cases hf : IMAGE_FORMAT_MAP.lookup (strLower toFormat) with
    | none => simp [hf] at h
    | some m =>
      cases hm : IMAGE_MIME_TYPE_MAP.lookup (strLower toFormat) with
      | none => simp [hf, hm] at h
      | some mt =>
        simp [hf, hm] at h
        have hl' : strLower toFormat ∈ LOSSY_FORMATS := by simpa using hl
        rw [← h]
        simp [hl']
  · intro quality
    unfold clampQuality
    omega
  · intro quality h
    unfold clampQuality
    omega
  · intro quality h
    unfold clampQuality
    omega
  · intro toFormat q q'
    cases hf : IMAGE_FORMAT_MAP.lookup (strLower toFormat) with
    | none => simp [convertImagePlan, hf]
    | some m =>
      cases hm : IMAGE_MIME_TYPE_MAP.lookup (strLower toFormat) with
      | none => simp [convertImagePlan, hf, hm]
      | some mt =>
        simp only [convertImagePlan, hf, hm]
        rfl

/-- Witness for C10 at target jpeg with out-of-range qualities 250 and 0. -/
theorem image_quality_clamped_witness :
    convertImagePlan "jpeg" 250 = .ok ⟨"Jpeg", "image/jpeg", some 100⟩ ∧
    (⟨"Jpeg", "image/jpeg", some 100⟩ : ImagePlan).appliedQuality =
      some (clampQuality 250) ∧
    clampQuality 0 = 1 ∧ clampQuality 250 = 100 :=
  ⟨by decide,
   image_quality_clamped.1 "jpeg" 250 ⟨"Jpeg", "image/jpeg", some 100⟩
     (by decide) (by decide),
   image_quality_clamped.2.2.1 0 (by decide),
   image_quality_clamped.2.2.2.1 250 (by decide)⟩

/-- C9: convertDocument rejects a PDF target before the document engine is
initialized or run, with the explicit browser-unsupported message, for every
engine and input. -/
theorem document_pdf_fails_before_engine :
    ∀ (engine : String → String → String → Except String String)
      (file : MockFile) (fileText toFormat : String),
      strLower toFormat = "pdf" →
      convertDocument engine file fileText toFormat =
        (.error pdfUnsupportedMessage, false) ∧
      List.IsInfix ("not supported".data) (pdfUnsupportedMessage.data) := by
  intro engine file fileText toFormat h
  constructor
  · unfold convertDocument
    rw [h]
    have hsup : isSupportedDocumentOutputFormat "pdf" = true := by decide
    simp [hsup]
  · decide

/-- Witness for C9 with a trivial engine, a Markdown input and the
uppercase target PDF. -/
theorem document_pdf_fails_before_engine_witness :
    strLower "PDF" = "pdf" ∧
    convertDocument (fun _ _ _ => .ok "") ⟨"doc.md", "text/markdown"⟩ "hello"
      "PDF" = (.error pdfUnsupportedMessage, false) :=
  ⟨by decide,
   (document_pdf_fails_before_engine (fun _ _ _ => .ok "")
     ⟨"doc.md", "text/markdown"⟩ "hello" "PDF" (by decide)).1⟩

/-- C1 counterexample: with no explicit bitrate the derived bitrate at
quality 50 is 191 kbps, not approximately 160 kbps; the mp3 argument list
carries 191k. -/
theorem quality50_not_160_counterexample :
    derivedBitrate 50 = 191 ∧
    ¬ (155 ≤ derivedBitrate 50 ∧ derivedBitrate 50 ≤ 165) ∧
    buildFFmpegArgs "input" "output" "mp3"
        { mode := "simple", quality := 50, bitrate := none, sampleRate := none } =
      .ok ["-i", "input", "-c:a", "libmp3lame", "-b:a", "191k", "-y", "output"] := by
  refine ⟨derivedBitrate_fifty, ?_, ?_⟩
  · rw [derivedBitrate_fifty]
    decide
  · have hc := buildFFmpegArgs_no_explicit_bitrate "input" "output" "mp3"
      { mode := "simple", quality := 50, bitrate := none, sampleRate := none }
      ⟨"libmp3lame", "mp3", "audio/mpeg"⟩ (by decide) (by decide) (by decide)
    rw [hc]
    simp [derivedBitrate_fifty, optTruthy]
    decide

/-- C1 (amended): for every audio conversion to a bitrate-supporting target
with no explicit bitrate, the argument list carries the bitrate derived from
the quality by rounding the linear map 64 + (quality - 1) * 256 / 99:
64 kbps at quality 1, 320 kbps at quality 100, and 191 kbps (not 160) at
quality 50. -/
theorem audio_derived_bitrate_linear :
    (∀ (inputFile outputFile toFormat : String) (settings : QualitySettings),
        optTruthy settings.bitrate = false →
        BITRATE_SUPPORTED_FORMATS.contains (strLower toFormat) = true →
        ∃ args, buildFFmpegArgs inputFile outputFile toFormat settings = .ok args ∧
          List.IsInfix ["-b:a", toString (derivedBitrate settings.quality) ++ "k"]
            args) ∧
    derivedBitrate 1 = 64 ∧ derivedBitrate 100 = 320 ∧ derivedBitrate 50 = 191 := by
  refine ⟨?_, derivedBitrate_one, derivedBitrate_hundred, derivedBitrate_fifty⟩
  intro inputFile outputFile toFormat settings hb hsup
  obtain ⟨config, hcfg⟩ := bitrate_supported_has_config _ hsup
  refine ⟨_, buildFFmpegArgs_no_explicit_bitrate inputFile outputFile toFormat
    settings config hcfg hsup hb, ?_⟩
  refine ⟨["-i", inputFile, "-c:a", config.codec] ++
      (if optTruthy settings.sampleRate then
        ["-ar", toString (settings.sampleRate.getD 0)] else []),
    ["-y", outputFile], ?_⟩
  simp [List.append_assoc]

/-- Witness for C1 (amended) at target mp3, quality 50, no explicit
bitrate. -/
theorem audio_derived_bitrate_linear_witness :
    optTruthy (none : Option Int) = false ∧
    BITRATE_SUPPORTED_FORMATS.contains (strLower "mp3") = true ∧
    ∃ args, buildFFmpegArgs "in" "out" "mp3"
        { mode := "simple", quality := 50, bitrate := none, sampleRate := none } =
        .ok args ∧
      List.IsInfix ["-b:a", toString (derivedBitrate 50) ++ "k"] args :=
  ⟨by decide, by decide,
   audio_derived_bitrate_linear.1 "in" "out" "mp3"
     { mode := "simple", quality := 50, bitrate := none, sampleRate := none }
     (by decide) (by decide)⟩

/-- C5: quality settings are snapshotted per run: a run created by
startConversion records the global settings of that moment, and a later
setGlobalSettings edit changes only the global settings, leaving every
in-flight run record and the task list untouched. -/
theorem settings_snapshot_immutable :
    (∀ (s : StoreState) (p : SettingsPatch),
        (setGlobalSettings s p).runs = s.runs ∧
        (setGlobalSettings s p).files = s.files ∧
        (setGlobalSettings s p).globalSettings = mergeSettings s.globalSettings p) ∧
    (∀ s : StoreState, ∀ r ∈ (startConversion s).runs,
        r ∈ s.runs ∨ r.snapshot = s.globalSettings) := by
  refine ⟨fun s p => ⟨rfl, rfl, rfl⟩, ?_⟩
  intro s r hr
  unfold startConversion at hr
  by_cases hconv : s.isConverting = true
  · rw [if_pos hconv] at hr
    exact Or.inl hr
  · rw [if_neg hconv] at hr
    by_cases hempty : (s.files.filter isReadyTask).isEmpty = true
    · rw [if_pos hempty] at hr
      exact Or.inl hr
    · rw [if_neg hempty] at hr
      have hr' : r ∈ s.runs ++
          [{ pending := (s.files.filter isReadyTask).map Task.id,
             snapshot := s.globalSettings }] := hr
      rcases List.mem_append.mp hr' with h | h
      · exact Or.inl h
      · exact Or.inr (by rw [List.mem_singleton.mp h])

/-- Witness for C5: the run dispatched after adding clip.wav carries the
default settings as its snapshot. -/
theorem settings_snapshot_immutable_witness :
    ((⟨[0], defaultSettings⟩ : Run) ∈
      (startConversion (addFiles initialState [⟨"clip.wav", "audio/wav"⟩])).runs) ∧
    ((⟨[0], defaultSettings⟩ : Run) ∈
        (addFiles initialState [⟨"clip.wav", "audio/wav"⟩]).runs ∨
      (⟨[0], defaultSettings⟩ : Run).snapshot =
        (addFiles initialState [⟨"clip.wav", "audio/wav"⟩]).globalSettings) :=
  ⟨by decide,
   settings_snapshot_immutable.2 (addFiles initialState [⟨"clip.wav", "audio/wav"⟩])
     ⟨[0], defaultSettings⟩ (by decide)⟩

/-- C4 counterexample: clearAll force-clears the running flag while a
dispatched conversion is still unsettled: after add, start, clear the flag
is down but the run record still holds a pending invocation. -/
theorem running_flag_clear_counterexample :
    (applyEvents initialState
      [.add [⟨"clip.wav", "audio/wav"⟩], .start, .clear]).isConverting = false ∧
    (applyEvents initialState
      [.add [⟨"clip.wav", "audio/wav"⟩], .start, .clear]).runs.any
        (fun r => !r.pending.isEmpty) = true :=
  ⟨by decide, by decide⟩

/-- C4 (amended): start while a run is in progress is a no-op (the state,
including the run records, is unchanged, so no Execution Boundary invocation
is dispatched), and in every execution without clearAll the running flag is
down only when no dispatched conversion is outstanding. -/
theorem at_most_one_run_guard :
    (∀ s : StoreState, s.isConverting = true → applyEvent s .start = s) ∧
    (∀ es : List Event, (∀ e ∈ es, e ≠ Event.clear) →
        (applyEvents initialState es).isConverting = false →
        (applyEvents initialState es).runs = []) := by
  constructor
  · intro s h
    show startConversion s = s
    unfold startConversion
    rw [if_pos h]
  · intro es hnc hflag
    exact (runInv_applyEvents hnc runInv_initial).2 hflag

/-- Witness for C4 (amended): a second start during a running conversion
changes nothing, and a clear-free completed run leaves no outstanding
invocation once the flag is down. -/
theorem at_most_one_run_guard_witness :
    ((startConversion (addFiles initialState [⟨"clip.wav", "audio/wav"⟩])).isConverting
        = true ∧
      applyEvent (startConversion (addFiles initialState
        [⟨"clip.wav", "audio/wav"⟩])) .start =
        startConversion (addFiles initialState [⟨"clip.wav", "audio/wav"⟩])) ∧
    (applyEvents initialState [.add [⟨"clip.wav", "audio/wav"⟩], .start,
        .settle 0 (.success 0), .finish]).runs = [] :=
  ⟨⟨by decide, at_most_one_run_guard.1 _ (by decide)⟩,
   at_most_one_run_guard.2
     [.add [⟨"clip.wav", "audio/wav"⟩], .start, .settle 0 (.success 0), .finish]
     (by decide) (by decide)⟩

/-- C3 counterexample: with the raw updateFile store action a completed task
transitions again: after add, start and a successful settle the task is
complete, and updateFile with the retry payload moves it back to pending, a
step outside the claimed state machine. -/
theorem complete_transition_counterexample :
    statusOf (applyEvents initialState
      [.add [⟨"clip.wav", "audio/wav"⟩], .start, .settle 0 (.success 0)]) 0 =
      some .complete ∧
    statusOf (applyEvent (applyEvents initialState
      [.add [⟨"clip.wav", "audio/wav"⟩], .start, .settle 0 (.success 0)])
      (.update 0 retryPatch)) 0 = some .pending ∧
    ¬ allowedStep .complete .pending :=
  ⟨by decide, by decide, by decide⟩

/-- C3 (amended): in every execution from the initial store state whose
updateFile uses are retry actions on error tasks, each task present before
and after an event steps only along pending to converting, converting to
complete, converting to error, or error to pending (or stays put); no
transition leaves complete. -/
theorem status_transitions_legal_tame :
    (∀ (es : List Event) (s : StoreState), TameTrace initialState es s →
      ∀ e : Event, tameEvent s e →
      ∀ (j : Nat) (st st' : Status),
        statusOf s j = some st → statusOf (applyEvent s e) j = some st' →
        allowedStep st st') ∧
    (∀ b : Status, allowedStep .complete b → b = .complete) := by
  constructor
  · intro es s htr e hte j st st' h1 h2
    exact step_legal (wf_of_trace htr wf_initial) hte h1 h2
  · intro b hb
    rcases hb with h | h | h | h | h
    · exact h.symm
    · cases h.1
    · cases h.1
    · cases h.1
    · cases h.1

/-- Witness for C3 (amended): after adding clip.wav, the start event moves
the task from pending to converting, a legal step. -/
theorem status_transitions_legal_tame_witness :
    statusOf (applyEvent initialState (.add [⟨"clip.wav", "audio/wav"⟩])) 0 =
      some .pending ∧
    statusOf (applyEvent (applyEvent initialState
      (.add [⟨"clip.wav", "audio/wav"⟩])) .start) 0 = some .converting ∧
    allowedStep .pending .converting :=
  ⟨by decide, by decide,
   status_transitions_legal_tame.1 [.add [⟨"clip.wav", "audio/wav"⟩]] _
     (TameTrace.cons trivial (TameTrace.nil _)) .start trivial 0 .pending .converting
     (by decide) (by decide)⟩

end Aepoconvert
